import Mathlib

/-!
Verification of the ForensicFlow Evidence Correlation and Insight Engine
(`backend/ai_analysis/tools.py` and `backend/ai_analysis/ai_service.py`).

The Python code is shallowly embedded: dict-shaped evidence records become
structures, Python dicts (which iterate in insertion order) become
insertion-ordered association lists, Python's stable `list.sort` becomes a
stable insertion sort, `float` arithmetic on the small decimal constants of
the source becomes exact rational arithmetic, and the external LLM HTTP
calls become an explicit outcome parameter (the engine treats them as an
external capability).  Strings are compared and lowercased by code point,
matching Python `ord`-based comparison (ASCII model of `str.lower`).
-/

namespace ForensicFlow

/-- Code-point lexicographic comparison of character lists, the order Python
uses for `str < str`. -/
def strLtData : List Char → List Char → Bool
  | [], [] => false
  | [], _ :: _ => true
  | _ :: _, [] => false
  | a :: as, b :: bs =>
    if a.toNat < b.toNat then true
    else if b.toNat < a.toNat then false
    else strLtData as bs

/-- Python string `<` (code-point lexicographic). -/
def pyLt (a b : String) : Bool := strLtData a.data b.data

/-- ASCII model of Python `str.lower` on one character. -/
def lowerChar (c : Char) : Char :=
  if 65 ≤ c.toNat ∧ c.toNat ≤ 90 then Char.ofNat (c.toNat + 32) else c

/-- ASCII model of Python `str.lower`. -/
def lowerStr (s : String) : String := ⟨s.data.map lowerChar⟩

/-- ASCII model of Python `str.upper` on one character. -/
def upperChar (c : Char) : Char :=
  if 97 ≤ c.toNat ∧ c.toNat ≤ 122 then Char.ofNat (c.toNat - 32) else c

/-- Python `str.capitalize`: first character uppercased, the rest lowercased. -/
def pyCapitalize (s : String) : String :=
  match s.data with
  | [] => ""
  | c :: cs => ⟨upperChar c :: cs.map lowerChar⟩

/-- Substring search on character lists. -/
def containsSub (pat : List Char) : List Char → Bool
  | [] => pat.isEmpty
  | c :: cs => pat.isPrefixOf (c :: cs) || containsSub pat cs

/-- Python `pat in s` substring containment. -/
def strContains (s pat : String) : Bool := containsSub pat.data s.data

/-- Python slicing `s[:n]` (by code point). -/
def strTake (s : String) (n : Nat) : String := ⟨s.data.take n⟩

/-- Python `sep.join(parts)`. -/
def joinParts (sep : String) : List String → String
  | [] => ""
  | [a] => a
  | a :: b :: rest => a ++ sep ++ joinParts sep (b :: rest)

/-- One extracted entity mention of an evidence item: the `type`/`value`
pair of the dicts in `item['entities']` (`tools.py` line 190). -/
structure EntityMention where
  type : String
  value : String
deriving Repr, DecidableEq

/-- One evidence record, after the normalisation boundary has applied the
source's `.get(key, default)` defaults: `id` and `type` via `str`, `source`
and `device` default `"Unknown"`, `timestamp` and `content` default `""`
(`tools.py` lines 179-184). -/
structure EvidenceItem where
  id : String
  type : String
  source : String
  device : String
  timestamp : String
  content : String
  entities : List EntityMention
deriving Repr, DecidableEq

/-! ## generate_network_graph (tools.py lines 147-369) -/

/-- A node of the correlation graph (`tools.py` lines 198-236). -/
structure GraphNode where
  id : String
  label : String
  group : String
  mentions : Nat
  evidence_ids : List String
deriving Repr, DecidableEq

/-- One context snippet recorded for a co-occurring pair
(`tools.py` lines 250-254). -/
structure EdgeContext where
  source : String
  timestamp : String
  snippet : String
deriving Repr, DecidableEq

/-- The per-pair accumulator `entity_cooccurrence[pair_key]`
(`tools.py` lines 242-247). -/
structure CoocData where
  count : Nat
  evidence_ids : List String
  contexts : List EdgeContext
deriving Repr, DecidableEq

/-- An edge of the correlation graph (`tools.py` lines 264-271). -/
structure GraphEdge where
  source : String
  target : String
  label : String
  weight : Nat
  evidence_ids : List String
  contexts : List EdgeContext
deriving Repr, DecidableEq

/-- The key `tuple(sorted([id1, id2]))` of `tools.py` line 241: the pair in
Python sorted order. -/
def pairKey (a b : String) : String × String :=
  if pyLt b a then (b, a) else (a, b)

/-- Node label for an entity value: `e_value[:40] + ('...' if len > 40 else '')`
(`tools.py` line 201). -/
def label40 (v : String) : String :=
  strTake v 40 ++ (if 40 < v.length then "..." else "")

/-- One element of the source's `item_entities` list: node id, group and the
display label the node gets on first insertion. -/
structure EntityRef where
  nid : String
  group : String
  label : String
deriving Repr, DecidableEq

/-- The `item_entities` collected for one evidence item (`tools.py` lines
187-236): each entity mention with value longer than 2 characters as
`type:value`, then the item's `source` and `device` (when distinct from the
`'Unknown'` sentinel and non-empty) as synthetic `source:`/`device:` nodes. -/
def itemEntityRefs (it : EvidenceItem) : List EntityRef :=
  (it.entities.filter (fun e => 2 < e.value.length)).map
      (fun e => ⟨e.type ++ ":" ++ e.value, e.type, label40 e.value⟩)
    ++ (if it.source != "" && it.source != "Unknown" then
          [⟨"source:" ++ it.source, "source", strTake it.source 40⟩] else [])
    ++ (if it.device != "" && it.device != "Unknown" then
          [⟨"device:" ++ it.device, "device", strTake it.device 40⟩] else [])

/-- The node ids of `item_entities` for one item. -/
def itemIds (it : EvidenceItem) : List String :=
  (itemEntityRefs it).map EntityRef.nid

/-- The ordered `(i, j>i)` pair keys the double loop of `tools.py` lines
239-241 enumerates. -/
def itemPairs : List String → List (String × String)
  | [] => []
  | x :: xs => xs.map (fun y => pairKey x y) ++ itemPairs xs

/-- The `nodes` dict update of `tools.py` lines 198-207 (and 213-222,
224-236): insert the node (mentions 0) if absent, then increment `mentions`
and append the evidence id.  The dict is insertion ordered. -/
def touchNode (nodes : List GraphNode) (r : EntityRef) (itemId : String) :
    List GraphNode :=
  if nodes.any (fun n => n.id == r.nid) then
    nodes.map (fun n =>
      if n.id == r.nid then
        { n with mentions := n.mentions + 1,
                 evidence_ids := n.evidence_ids ++ [itemId] }
      else n)
  else
    nodes ++ [{ id := r.nid, label := r.label, group := r.group,
                mentions := 1, evidence_ids := [itemId] }]

/-- The `entity_cooccurrence` dict update of `tools.py` lines 241-254:
initialise the pair's record if absent, then increment `count` and append
the evidence id and context snippet. -/
def bumpPair (cooc : List ((String × String) × CoocData)) (p : String × String)
    (itemId : String) (ctx : EdgeContext) :
    List ((String × String) × CoocData) :=
  if cooc.any (fun e => e.1 == p) then
    cooc.map (fun e =>
      if e.1 == p then
        (e.1, { count := e.2.count + 1,
                evidence_ids := e.2.evidence_ids ++ [itemId],
                contexts := e.2.contexts ++ [ctx] })
      else e)
  else
    cooc ++ [(p, { count := 1, evidence_ids := [itemId], contexts := [ctx] })]

/-- The mutable state of pass 1 of `generate_network_graph`: the `nodes`
dict and the `entity_cooccurrence` dict, both insertion ordered. -/
structure GState where
  nodes : List GraphNode
  cooc : List ((String × String) × CoocData)
deriving Repr, DecidableEq

/-- Pass 1 body for one evidence item (`tools.py` lines 178-254): touch the
node of every item entity in order, then bump the co-occurrence record of
every `(i, j>i)` pair of item entities. -/
def processItem (st : GState) (it : EvidenceItem) : GState :=
  let refs := itemEntityRefs it
  let ctx : EdgeContext := ⟨it.source, it.timestamp, strTake it.content 100⟩
  { nodes := refs.foldl (fun ns r => touchNode ns r it.id) st.nodes,
    cooc := (itemPairs (refs.map EntityRef.nid)).foldl
      (fun c p => bumpPair c p it.id ctx) st.cooc }

/-- Pass 1 over the evidence, capped at the first 100 items
(`tools.py` line 178). -/
def accumState (evidence : List EvidenceItem) : GState :=
  (evidence.take 100).foldl processItem ⟨[], []⟩

/-- The `_determine_relationship_type` keyword families
(`tools.py` lines 302-331). -/
def determine_relationship_type (node1_id node2_id : String)
    (contexts : List EdgeContext) : String :=
  if contexts.isEmpty then "associated_with"
  else
    let context_text :=
      joinParts " " ((contexts.take 3).map (fun c => lowerStr c.snippet))
    if ["called", "messaged", "contacted", "spoke", "talked"].any
        (fun w => strContains context_text w) then "communicated_with"
    else if ["paid", "transferred", "sent money", "transaction", "crypto"].any
        (fun w => strContains context_text w) then "financial_transaction"
    else if ["met at", "location", "place", "address"].any
        (fun w => strContains context_text w) then "met_at_location"
    else if strContains node1_id "device:" || strContains node2_id "device:" then
      "used_device"
    else if strContains node1_id "source:" || strContains node2_id "source:" then
      "appeared_in"
    else "associated_with"

/-- Pass 2 (`tools.py` lines 256-271): every co-occurrence record with count
at least 1 becomes an edge, with the first 5 evidence ids and the first 3
contexts as samples. -/
def rawEdges (evidence : List EvidenceItem) : List GraphEdge :=
  ((accumState evidence).cooc.filter (fun e => 1 ≤ e.2.count)).map (fun e =>
    { source := e.1.1, target := e.1.2,
      label := determine_relationship_type e.1.1 e.1.2 e.2.contexts,
      weight := e.2.count,
      evidence_ids := e.2.evidence_ids.take 5,
      contexts := e.2.contexts.take 3 })

/-- Stable insertion step of a descending sort by the key `k`: a new element
goes after every element with a strictly larger or equal key. -/
def insertDescBy (k : α → Nat) (x : α) : List α → List α
  | [] => [x]
  | y :: ys => if k x < k y then y :: insertDescBy k x ys else x :: y :: ys

/-- Stable descending sort by the key `k`.  Python's
`list.sort(key=..., reverse=True)` is a stable descending sort, and the
stable descending sort of a list is unique, so this embeds
`tools.py` lines 277 and 288. -/
def sortDescBy (k : α → Nat) : List α → List α
  | [] => []
  | x :: xs => insertDescBy k x (sortDescBy k xs)

/-- One entry of the `central_nodes` insight (`tools.py` lines 349-357). -/
structure CentralNode where
  id : String
  label : String
  connections : Nat
  group : String
deriving Repr, DecidableEq

/-- One entry of the `outliers` insight (`tools.py` lines 360-367). -/
structure OutlierNode where
  id : String
  label : String
  group : String
deriving Repr, DecidableEq

/-- The `insights` payload of `_generate_graph_insights`
(`tools.py` lines 333-369). -/
structure GraphInsights where
  central_nodes : List CentralNode
  outliers : List OutlierNode
deriving Repr, DecidableEq

/-- The `node_connections` degree dict of `tools.py` lines 342-345,
insertion ordered. -/
def nodeConnections (edges : List GraphEdge) : List (String × Nat) :=
  edges.foldl (fun acc e =>
    let acc :=
      if acc.any (fun kv => kv.1 == e.source) then
        acc.map (fun kv => if kv.1 == e.source then (kv.1, kv.2 + 1) else kv)
      else acc ++ [(e.source, 1)]
    if acc.any (fun kv => kv.1 == e.target) then
      acc.map (fun kv => if kv.1 == e.target then (kv.1, kv.2 + 1) else kv)
    else acc ++ [(e.target, 1)]) []

/-- The `_generate_graph_insights` computation (`tools.py` lines 333-369):
top 3 node ids by edge degree (resolved against the kept nodes), and kept
nodes of degree exactly 1. -/
def generate_graph_insights (nodes : List GraphNode) (edges : List GraphEdge) :
    GraphInsights :=
  let conns := nodeConnections edges
  let central := (sortDescBy (fun kv => kv.2) conns).take 3
  { central_nodes := central.filterMap (fun kv =>
      (nodes.find? (fun n => n.id == kv.1)).map (fun n =>
        ⟨kv.1, n.label, kv.2, n.group⟩)),
    outliers := (nodes.filter (fun n =>
      ((conns.find? (fun kv => kv.1 == n.id)).map Prod.snd).getD 0 == 1)).map
      (fun n => ⟨n.id, n.label, n.group⟩) }

/-- The structured result of the computed branch of `generate_network_graph`
(`tools.py` lines 293-300). -/
structure GraphResult where
  nodes : List GraphNode
  edges : List GraphEdge
  node_count : Nat
  edge_count : Nat
  insights : GraphInsights
deriving Repr, DecidableEq

/-- The kept nodes: all accumulated nodes, stably sorted by `mentions`
descending, top 30 (`tools.py` lines 273-278). -/
def keptNodes (evidence : List EvidenceItem) : List GraphNode :=
  (sortDescBy (fun n => n.mentions) (accumState evidence).nodes).take 30

/-- The surviving edges: raw edges whose both endpoints are kept nodes
(`tools.py` lines 281-285). -/
def survivingEdges (evidence : List EvidenceItem) : List GraphEdge :=
  (rawEdges evidence).filter (fun e =>
    (keptNodes evidence).any (fun n => n.id == e.source) &&
    (keptNodes evidence).any (fun n => n.id == e.target))

/-- The computed branch of `generate_network_graph`
(`tools.py` lines 166-300). -/
def computeGraph (evidence : List EvidenceItem) : GraphResult :=
  let node_list := keptNodes evidence
  let filtered_edges := (sortDescBy (fun e => e.weight) (survivingEdges evidence)).take 50
  { nodes := node_list,
    edges := filtered_edges,
    node_count := node_list.length,
    edge_count := filtered_edges.length,
    insights := generate_graph_insights node_list filtered_edges }

/-- The tool parameters read by `generate_network_graph` (`tools.py` lines
152-153): `params.get('nodes', [])` and `params.get('edges', [])`.  The
function never reads a `links` key; the field is carried here to state that
fact.  Externally supplied nodes and edges are opaque payloads. -/
structure NetworkGraphParams where
  nodes : List String
  edges : List String
  links : List String
deriving Repr, DecidableEq

/-- Result of `generate_network_graph`: either the validated AI-provided
pass-through (`tools.py` lines 156-164) or the computed graph. -/
inductive NetworkGraphResult where
  | provided (nodes edges : List String) (node_count edge_count : Nat)
  | computed (result : GraphResult)
deriving Repr, DecidableEq

/-- The `generate_network_graph` entry (`tools.py` lines 147-300): when both
provided lists are non-empty (Python truthiness of `nodes_provided and
edges_provided`) they are passed through unchanged; otherwise the graph is
computed from the held evidence. -/
def generate_network_graph (params : NetworkGraphParams)
    (evidence : List EvidenceItem) : NetworkGraphResult :=
  if !params.nodes.isEmpty && !params.edges.isEmpty then
    .provided params.nodes params.edges params.nodes.length params.edges.length
  else
    .computed (computeGraph evidence)

/-! ## search_evidence (tools.py lines 418-482) -/

/-- The `date_range` parameter dict; a missing `start`/`end` key is the
empty string, which the source treats as absent (`tools.py` lines 458-459). -/
structure DateRange where
  start : String
  «end» : String
deriving Repr, DecidableEq

/-- The parameters read by `search_evidence` (`tools.py` lines 422-425);
`date_range = none` models the empty dict default. -/
structure SearchParams where
  query : String
  evidence_types : List String
  date_range : Option DateRange
  limit : Nat
deriving Repr, DecidableEq

/-- The text-search check of `tools.py` lines 433-447: an empty query
matches everything, else the lowercased query must be a substring of
content, source, device or type, or of some entity value. -/
def queryCheck (q : String) (it : EvidenceItem) : Bool :=
  if q == "" then true
  else
    [lowerStr it.content, lowerStr it.source, lowerStr it.device,
     lowerStr it.type].any (fun field => strContains field q) ||
    it.entities.any (fun e => strContains (lowerStr e.value) q)

/-- The type filter of `tools.py` lines 450-453. -/
def typeCheck (types : List String) (it : EvidenceItem) : Bool :=
  types.isEmpty || types.contains (lowerStr it.type)

/-- The date-range filter of `tools.py` lines 456-464: a non-empty `start`
excludes items whose timestamp string compares below it, a non-empty `end`
excludes items whose timestamp string compares above it. -/
def dateCheck (dr : Option DateRange) (it : EvidenceItem) : Bool :=
  match dr with
  | none => true
  | some d =>
    if d.start != "" && pyLt it.timestamp d.start then false
    else if d.«end» != "" && pyLt d.«end» it.timestamp then false
    else true

/-- Whether one item passes all three `search_evidence` filters. -/
def matchesItem (p : SearchParams) (it : EvidenceItem) : Bool :=
  queryCheck (lowerStr p.query) it &&
  typeCheck (p.evidence_types.map lowerStr) it &&
  dateCheck p.date_range it

/-- The accumulation loop of `tools.py` lines 431-469, with the
`len(filtered) >= limit: break` early exit after each append. -/
def searchLoop (p : SearchParams) (acc : List EvidenceItem) :
    List EvidenceItem → List EvidenceItem
  | [] => acc
  | it :: rest =>
    if matchesItem p it then
      if p.limit ≤ acc.length + 1 then acc ++ [it]
      else searchLoop p (acc ++ [it]) rest
    else searchLoop p acc rest

/-- The `search_evidence` tool (`tools.py` lines 418-482), returning the
filtered evidence list (the result dict's `evidence`; its `count` is the
length). -/
def search_evidence (evidence : List EvidenceItem) (p : SearchParams) :
    List EvidenceItem :=
  searchLoop p [] evidence

/-! ## execute_tool (tools.py lines 21-99)

The six tool bodies can raise arbitrary Python exceptions, so tool
execution is abstracted as a function into `Except`; `_generate_user_message`
(lines 101-145, presentation only) is likewise a parameter, and the wall
clock behind `execution_time` is a parameter `now`. -/

/-- One entry of `self.execution_log`: success entries carry `time`
(lines 68-73), failure entries carry `error` instead (lines 92-97). -/
structure LogEntry where
  tool : String
  parameters : String
  success : Bool
  time : Option Nat
  error : Option String
deriving Repr, DecidableEq

/-- The result dict of `execute_tool` (timestamp/time presentation fields
are carried by the log model). -/
structure ToolResult where
  success : Bool
  tool_name : String
  data : Option String
  error : Option String
  user_message : String
deriving Repr, DecidableEq

/-- The fixed catalogue of tool names (`tools.py` lines 30-37). -/
def tool_methods : List String :=
  ["generate_network_graph", "generate_timeline", "search_evidence",
   "analyze_pattern", "get_entity_details", "format_report_section"]

/-- Python `s.replace('_', ' ')`. -/
def replaceUnderscores (s : String) : String :=
  ⟨s.data.map (fun c => if c == '_' then ' ' else c)⟩

/-- The `execute_tool` dispatcher (`tools.py` lines 21-99).  An unknown tool
name returns early (lines 39-45) without touching the log; a tool that runs
appends one success entry (lines 68-73) or one failure entry (lines 92-97). -/
def execute_tool (run : String → String → Except String String)
    (gum : String → String → String → String) (now : Nat)
    (log : List LogEntry) (tool_name parameters : String) :
    ToolResult × List LogEntry :=
  if !(tool_methods.contains tool_name) then
    ({ success := false, tool_name := tool_name, data := none,
       error := some ("Unknown tool: " ++ tool_name),
       user_message := "I don\x27t have a tool called \x27" ++ tool_name ++
         "\x27. Available tools: " ++ joinParts ", " tool_methods }, log)
  else
    match run tool_name parameters with
    | .ok d =>
      ({ success := true, tool_name := tool_name, data := some d, error := none,
         user_message := gum tool_name parameters d },
       log ++ [⟨tool_name, parameters, true, some now, none⟩])
    | .error e =>
      ({ success := false, tool_name := tool_name, data := none, error := some e,
         user_message := "I tried to " ++ replaceUnderscores tool_name ++
           " but encountered an error: " ++ e },
       log ++ [⟨tool_name, parameters, false, none, some e⟩])

/-- A sequence of `execute_tool` calls against one registry instance,
threading the execution log. -/
def executeMany (run : String → String → Except String String)
    (gum : String → String → String → String) (now : Nat)
    (log : List LogEntry) : List (String × String) → List LogEntry
  | [] => log
  | (n, p) :: rest =>
    executeMany run gum now (execute_tool run gum now log n p).2 rest

/-! ## ConversationManager (ai_service.py lines 15-193) -/

/-- One conversation exchange (`ai_service.py` lines 32-37); the
`datetime.now()` timestamp is a parameter. -/
structure Exchange where
  query : String
  response : String
  timestamp : String
  metadata : String
deriving Repr, DecidableEq

/-- The last `n` elements of a list: the state a `deque(maxlen=n)` holds
after the appends. -/
def takeLast (n : Nat) (l : List α) : List α := (l.reverse.take n).reverse

/-- The ConversationManager state used by the conversation-history claims:
the bounded `exchanges` deque and the `query_count` counter
(`ai_service.py` lines 21-28; the entity/fact tracking side tables are not
involved in the claims below). -/
structure ConversationManager where
  max_exchanges : Nat
  max_tokens : Nat
  exchanges : List Exchange
  query_count : Nat
deriving Repr, DecidableEq

/-- The constructor defaults (`ai_service.py` line 21). -/
def ConversationManager.init (max_exchanges : Nat := 10)
    (max_tokens : Nat := 8000) : ConversationManager :=
  ⟨max_exchanges, max_tokens, [], 0⟩

/-- The `add_exchange` update (`ai_service.py` lines 30-47): append to the
`deque(maxlen=max_exchanges)` (which silently evicts the oldest entries) and
bump `query_count`. -/
def add_exchange (cm : ConversationManager) (query response ts meta : String) :
    ConversationManager :=
  { cm with
    exchanges := takeLast cm.max_exchanges (cm.exchanges ++ [⟨query, response, ts, meta⟩]),
    query_count := cm.query_count + 1 }

/-- One message of the prompt-formatted history
(`ai_service.py` lines 156-163). -/
structure PromptMsg where
  role : String
  content : String
deriving Repr, DecidableEq

/-- The `get_conversation_history_for_prompt` formatting
(`ai_service.py` lines 152-164): each stored exchange becomes a user message
and a 500-character-truncated assistant message. -/
def get_conversation_history_for_prompt (cm : ConversationManager) :
    List PromptMsg :=
  cm.exchanges.flatMap (fun ex =>
    [⟨"user", ex.query⟩, ⟨"assistant", strTake ex.response 500⟩])

/-! ## _calculate_confidence (ai_service.py lines 1050-1086) -/

/-- The `_calculate_confidence` heuristic (`ai_service.py` lines 1050-1086):
base 0.7, +0.1 when some item id occurs in the summary (Python `in`, so an
empty id always counts), +0.1 when the summary exceeds 200 characters,
+0.05 when more than 5 items are available and the lowercased summary
mentions pattern/connection/relationship, capped at 0.95; float arithmetic
is modelled exactly over the rationals. -/
def calculate_confidence (summary : String) (evidence_items : List EvidenceItem) :
    ℚ × String :=
  let confidence : ℚ := 0.7
  let evidence_mentioned := evidence_items.countP (fun item => strContains summary item.id)
  let step1 : ℚ × List String :=
    if 0 < evidence_mentioned then
      (confidence + 0.1,
       ["references " ++ toString evidence_mentioned ++ " specific evidence items"])
    else (confidence, [])
  let step2 : ℚ × List String :=
    if 200 < summary.length then
      (step1.1 + 0.1, step1.2 ++ ["comprehensive analysis provided"])
    else step1
  let step3 : ℚ × List String :=
    if 5 < evidence_items.length &&
        ["pattern", "connection", "relationship"].any
          (fun w => strContains (lowerStr summary) w) then
      (step2.1 + 0.05, step2.2 ++ ["pattern analysis included"])
    else step2
  let capped := min 0.95 step3.1
  (capped,
   if step3.2.isEmpty then "Based on general analysis"
   else "Based on " ++ joinParts ", " step3.2)

/-! ## _detect_patterns (ai_service.py lines 1689-1811)

The regex table itself runs inside Python's `re`; its `findall` is
abstracted as a parameter mapping pattern name and content to the match
list, and timestamp parsing plus `strftime('%Y-%m-%d %H:00')` as a
parameter `hourKeyOf` (returning `none` on a parse failure).  Everything
downstream of matching is embedded exactly. -/

/-- The fixed pattern table's names and descriptions
(`ai_service.py` lines 1696-1725). -/
def regex_patterns : List (String × String) :=
  [("crypto_address", "Cryptocurrency wallet address"),
   ("bank_account", "Potential bank account number"),
   ("amount", "Financial amount"),
   ("phone", "Phone number"),
   ("email", "Email address"),
   ("ip_address", "IP address"),
   ("meeting_reference", "Meeting arrangement")]

/-- Append matches under a pattern key, the
`pattern_matches[pattern_name].extend(matches)` dict update of
`ai_service.py` lines 1734-1737. -/
def extendMatches (pm : List (String × List String)) (name : String)
    (ms : List String) : List (String × List String) :=
  if pm.any (fun e => e.1 == name) then
    pm.map (fun e => if e.1 == name then (e.1, e.2 ++ ms) else e)
  else pm ++ [(name, ms)]

/-- The `pattern_matches` accumulation (`ai_service.py` lines 1728-1737):
outer loop over items, inner loop over the pattern table, keys inserted on
first non-empty match list. -/
def patternMatches (findall : String → String → List String)
    (items : List EvidenceItem) : List (String × List String) :=
  items.foldl (fun pm item =>
    regex_patterns.foldl (fun pm pi =>
      let ms := findall pi.1 item.content
      if !ms.isEmpty then extendMatches pm pi.1 ms else pm) pm) []

/-- The `metadata` payload of a pattern finding, tagged by which pass
produced it. -/
inductive FindingMeta where
  | regex (pattern_type : String) (unique_count total_count : Nat)
      (samples : List String)
  | freq (frequency : Nat) (type value : String)
  | temporal (spike_time : String) (event_count : Nat) (average : ℚ)
deriving Repr, DecidableEq

/-- One pattern finding (`ai_service.py` lines 1744-1754, 1767-1772,
1798-1807). -/
structure PatternFinding where
  title : String
  description : String
  confidence : ℚ
  meta : FindingMeta
deriving Repr, DecidableEq

/-- The finding built from one `pattern_matches` entry
(`ai_service.py` lines 1740-1754): reported only when it has at least 2
unique matches (Python `set` of the accumulated matches; modelled by
`dedup`, whose iteration order may differ from CPython's hash order but
whose count and membership agree), with confidence
`min(0.9, 0.6 + unique_count*0.05)`. -/
def mkRegexFinding (e : String × List String) : Option PatternFinding :=
  let unique_matches := e.2.dedup
  if 2 ≤ unique_matches.length then
    let desc := ((regex_patterns.find? (fun pi => pi.1 == e.1)).map Prod.snd).getD ""
    some { title := desc ++ " Pattern Detected",
           description := "Found " ++ toString unique_matches.length ++
             " unique " ++ lowerStr desc ++ "s across " ++
             toString e.2.length ++ " instances in the evidence.",
           confidence := min 0.9 (0.6 + (unique_matches.length : ℚ) * 0.05),
           meta := .regex e.1 unique_matches.length e.2.length
             (unique_matches.take 3) }
  else none

/-- The regex-signature findings pass (`ai_service.py` lines 1740-1754). -/
def regexFindings (findall : String → String → List String)
    (items : List EvidenceItem) : List PatternFinding :=
  (patternMatches findall items).filterMap mkRegexFinding

/-- Increment an insertion-ordered counter dict. -/
def bumpCount (l : List (String × Nat)) (k : String) : List (String × Nat) :=
  if l.any (fun e => e.1 == k) then
    l.map (fun e => if e.1 == k then (e.1, e.2 + 1) else e)
  else l ++ [(k, 1)]

/-- The `entity_freq` counter (`ai_service.py` lines 1757-1761). -/
def entityFreq (items : List EvidenceItem) : List (String × Nat) :=
  items.foldl (fun ef item =>
    item.entities.foldl (fun ef e => bumpCount ef (e.type ++ ":" ++ e.value)) ef) []

/-- Python `key.split(':', 1)` for keys built with a colon: the part before
the first colon and the part after it. -/
def splitFirstColon (s : String) : String × String :=
  match go s.data with
  | some (a, b) => (⟨a⟩, ⟨b⟩)
  | none => (s, "")
where
  go : List Char → Option (List Char × List Char)
    | [] => none
    | c :: cs =>
      if c == ':' then some ([], cs)
      else match go cs with
        | some (a, b) => some (c :: a, b)
        | none => none

/-- The entity-frequency findings (`ai_service.py` lines 1764-1772):
entities appearing at least 3 times, confidence `min(0.9, 0.5 + freq*0.1)`. -/
def freqFindings (items : List EvidenceItem) : List PatternFinding :=
  (entityFreq items).filterMap (fun e =>
    if 3 ≤ e.2 then
      let tv := splitFirstColon e.1
      some { title := "Frequent " ++ tv.1 ++ ": " ++ tv.2,
             description := "This " ++ lowerStr tv.1 ++ " appears " ++
               toString e.2 ++
               " times across the evidence, suggesting it may be significant to the investigation.",
             confidence := min 0.9 (0.5 + (e.2 : ℚ) * 0.1),
             meta := .freq e.2 tv.1 tv.2 }
    else none)

/-- Round to nearest, ties to even (the rounding Python's `format` applies
to the exact value; binary-float representation error is abstracted). -/
def roundHalfEven (q : ℚ) : ℤ :=
  let f := ⌊q⌋
  let r := q - f
  if r < 1/2 then f else if 1/2 < r then f + 1 else if f % 2 = 0 then f else f + 1

/-- Python `f-string` formatting `:.1f` for a non-negative rational. -/
def fmtRat1 (q : ℚ) : String :=
  let n := roundHalfEven (q * 10)
  toString (n / 10) ++ "." ++ toString (n.natAbs % 10)

/-- The temporal-spike findings (`ai_service.py` lines 1774-1809): with more
than 10 parseable timestamps, bucket into hour windows, flag windows whose
count exceeds twice the per-window mean, and report the single largest
spike. -/
def temporalFindings (hourKeyOf : String → Option String)
    (items : List EvidenceItem) : List PatternFinding :=
  let keys := items.filterMap (fun it => hourKeyOf it.timestamp)
  if 10 < keys.length then
    let hour_windows := keys.foldl bumpCount []
    let avg : ℚ := (keys.length : ℚ) / (max hour_windows.length 1 : ℚ)
    let spikes := hour_windows.filter (fun kv => avg * 2 < (kv.2 : ℚ))
    match sortDescBy Prod.snd spikes with
    | [] => []
    | top :: _ =>
      [{ title := "Unusual Activity Spike Detected",
         description := "Activity spike at " ++ top.1 ++ " with " ++
           toString top.2 ++ " events (avg: " ++ fmtRat1 avg ++ " per hour)",
         confidence := 0.75,
         meta := .temporal top.1 top.2 avg }]
  else []

/-- The `_detect_patterns` pass (`ai_service.py` lines 1689-1811): regex
findings, then frequency findings, then the temporal spike, truncated to the
first 8. -/
def detect_patterns (findall : String → String → List String)
    (hourKeyOf : String → Option String) (items : List EvidenceItem) :
    List PatternFinding :=
  (regexFindings findall items ++ freqFindings items ++
    temporalFindings hourKeyOf items).take 8

/-! ## Fallback query path (ai_service.py lines 693-738, 951-1017, 1542-1657) -/

/-- ASCII model of the word characters of the regex `\w`. -/
def isWordChar (c : Char) : Bool := c.isAlphanum || c == '_'

/-- Accumulator for splitting a character list into maximal runs. -/
def runsBy (p : Char → Bool) : List Char → List Char → List String
  | cur, [] => if cur.isEmpty then [] else [⟨cur.reverse⟩]
  | cur, c :: cs =>
    if p c then runsBy p (c :: cur) cs
    else if cur.isEmpty then runsBy p [] cs
    else ⟨cur.reverse⟩ :: runsBy p [] cs

/-- The matches of `re.findall(r'\b\w+\b', text)`: maximal word-character
runs. -/
def wordsOf (s : String) : List String := runsBy isWordChar [] s.data

/-- Python `str.split()` (split on whitespace runs). -/
def pySplitWs (s : String) : List String :=
  runsBy (fun c => !c.isWhitespace) [] s.data

/-- The stop-word set of `_extract_keywords` (`ai_service.py` line 1545). -/
def stop_words : List String :=
  ["the", "a", "an", "and", "or", "but", "in", "on", "at", "to", "for", "of",
   "with", "by", "from", "show", "me", "list", "all", "find", "any"]

/-- The `_extract_keywords` helper (`ai_service.py` lines 1542-1550). -/
def extract_keywords (text : String) : List String :=
  (wordsOf (lowerStr text)).filter (fun w =>
    !(stop_words.contains w) && 2 < w.length)

/-- The relevance-scored evidence selection of `_fallback_query`
(`ai_service.py` lines 956-973): items whose content or source contains at
least one query keyword, stably sorted by score descending. -/
def relevantItems (query_text : String) (evidence_items : List EvidenceItem) :
    List EvidenceItem :=
  let key_terms := extract_keywords (lowerStr query_text)
  let scored := evidence_items.filterMap (fun item =>
    let relevance := key_terms.countP (fun term =>
      strContains (lowerStr item.content) term ||
      strContains (lowerStr item.source) term)
    if 0 < relevance then some (item, relevance) else none)
  (sortDescBy Prod.snd scored).map Prod.fst

/-- The no-match templated response of `_fallback_query`
(`ai_service.py` lines 977-1011). -/
def noMatchTemplate (query_text : String) : String :=
  "## 🔍 Analysis Results\n\n**Query:** `" ++ query_text ++ "`  \n" ++
  "**Found:** **0 relevant evidence items**\n\n---\n\n" ++
  "### ❌ No Direct Matches\n\n" ++
  "No evidence items directly match your search terms. This could mean:\n\n" ++
  "- The specific terms you searched for don\x27t appear in the evidence\n" ++
  "- Try using **broader** or **alternative** search terms\n" ++
  "- The evidence might use different terminology\n\n---\n\n" ++
  "### 💡 Suggestions\n\n" ++
  "Here are some ways to improve your search:\n\n" ++
  "1. **Try related terms** - Use synonyms or broader categories\n" ++
  "2. **Simplify your query** - Use \"crypto\" instead of \"cryptocurrency wallet addresses\"\n" ++
  "3. **Browse manually** - Check the **Evidence** tab to see all available items\n" ++
  "4. **Use different views** - Try **Timeline** or **Network** views for different perspectives\n\n---\n\n" ++
  "> **💡 Tip:** SpectraX works best with natural language queries like \"Show me financial transactions\" or \"Find communications with foreign numbers\"\n\n" ++
  "Try one of these example queries:\n" ++
  "- \"Show me all messages\"\n" ++
  "- \"Find phone numbers\"\n" ++
  "- \"What crypto addresses are in this case?\"\n"

/-- Python `f-string` formatting `:.0f` for a non-negative rational. -/
def fmtRat0 (q : ℚ) : String := toString (roundHalfEven q)

/-- Append an item under a type key
(`_generate_fallback_summary`, `ai_service.py` lines 1575-1577). -/
def bumpGroup (l : List (String × List EvidenceItem)) (k : String)
    (it : EvidenceItem) : List (String × List EvidenceItem) :=
  if l.any (fun e => e.1 == k) then
    l.map (fun e => if e.1 == k then (e.1, e.2 ++ [it]) else e)
  else l ++ [(k, [it])]

/-- Add a value to an insertion-ordered set under a key
(`ai_service.py` lines 1646-1651; CPython iterates its `set` in hash order,
modelled as insertion order, which only affects display order). -/
def addToSet (l : List (String × List String)) (k v : String) :
    List (String × List String) :=
  if l.any (fun e => e.1 == k) then
    l.map (fun e =>
      if e.1 == k then (e.1, if e.2.contains v then e.2 else e.2 ++ [v]) else e)
  else l ++ [(k, [v])]

/-- Stable insertion step of an ascending Python-order string sort. -/
def insertAscStr (x : String) : List String → List String
  | [] => [x]
  | y :: ys => if pyLt y x then y :: insertAscStr x ys else x :: y :: ys

/-- Stable ascending string sort, Python `list.sort()` on strings. -/
def sortAscStr : List String → List String
  | [] => []
  | x :: xs => insertAscStr x (sortAscStr xs)

/-- The `_generate_fallback_summary` markdown builder
(`ai_service.py` lines 1552-1657), embedded part for part: grouping by
type/source/device, time range of sorted timestamps, top sources, up to 3
samples, the note line, recommended actions and the key-entity section. -/
def generate_fallback_summary (query : String) (items : List EvidenceItem) :
    String :=
  let summary_parts : List String :=
    ["## 🔍 Analysis Results\n",
     "**Query:** `" ++ query ++ "`\n",
     "**Found:** **" ++ toString items.length ++ " relevant evidence items**\n",
     "\n---\n"]
  let by_type := items.foldl (fun m it => bumpGroup m it.type it) []
  let by_source := items.foldl (fun m it => bumpCount m it.source) []
  let by_device := items.foldl (fun m it => bumpCount m it.device) []
  let _ := by_device
  let timestamps := items.filterMap (fun it =>
    if it.timestamp != "" then some it.timestamp else none)
  let summary_parts := summary_parts ++ ["### 📊 Key Findings\n\n"]
  let summary_parts := summary_parts ++
    (if !by_type.isEmpty then
      ["The evidence consists of **" ++ toString by_type.length ++
        " different types** of data:\n"] ++
      (sortDescBy (fun kv => kv.2.length) by_type).map (fun kv =>
        "- **" ++ pyCapitalize kv.1 ++ "**: " ++ toString kv.2.length ++
        " items (" ++
        fmtRat0 (((kv.2.length : ℚ) / (items.length : ℚ)) * 100) ++ "%)\n") ++
      ["\n"]
    else [])
  let summary_parts := summary_parts ++
    (if !timestamps.isEmpty then
      let sorted := sortAscStr timestamps
      ["**Time Range:** From `" ++ sorted.headD "" ++ "` to `" ++
        sorted.getLastD "" ++ "`\n\n"]
    else [])
  let summary_parts := summary_parts ++
    (if !by_source.isEmpty && 1 < by_source.length then
      ["**Most Active Sources:**\n"] ++
      (((sortDescBy Prod.snd by_source).take 3).filterMap (fun kv =>
        if kv.1 != "Unknown" then
          some ("- " ++ kv.1 ++ ": " ++ toString kv.2 ++ " items\n")
        else none)) ++
      ["\n"]
    else [])
  let summary_parts := summary_parts ++ ["### 📝 Sample Evidence\n\n"]
  let summary_parts := summary_parts ++
    ((by_type.take 3).flatMap (fun kv =>
      match kv.2 with
      | [] => []
      | sample :: _ =>
        ["**Example " ++ pyCapitalize kv.1 ++ "** (Evidence #" ++ sample.id ++
           "):\n",
         "- Source: " ++ sample.source ++ "\n",
         "- Time: " ++ (if sample.timestamp == "" then "No timestamp"
           else sample.timestamp) ++ "\n",
         "- Content: \"" ++ strTake sample.content 150 ++
           (if 150 < sample.content.length then "..." else "") ++ "\"\n\n"]))
  let summary_parts := summary_parts ++
    (if 10 < items.length then
      ["> **Note:** Showing top 10 results. " ++
        toString (items.length - 10) ++ " additional items found.\n"]
    else [])
  let summary_parts := summary_parts ++
    ["### 🎯 Recommended Actions\n",
     "- Review the evidence items above for detailed analysis",
     "- Use the **Timeline** view to see chronological patterns",
     "- Check the **Network** view for connection analysis",
     "- Generate a detailed **Report** for documentation\n",
     "> *Analysis completed in fallback mode. For enhanced AI insights, configure Gemini or OpenAI API keys.*"]
  let all_entities := items.flatMap EvidenceItem.entities
  let summary_parts := summary_parts ++
    (if !all_entities.isEmpty then
      let entity_types := all_entities.foldl (fun m e => addToSet m e.type e.value) []
      ["### 🏷️ Key Entities Identified\n"] ++
      ((entity_types.take 5).map (fun kv =>
        "- **" ++ kv.1 ++ "**: " ++
        joinParts ", " ((kv.2.take 3).map (fun v => "`" ++ v ++ "`"))))
    else [])
  joinParts "\n" summary_parts

/-- The `_fallback_query` path (`ai_service.py` lines 951-1017): the
templated no-match response with confidence exactly 0.3, or the generated
summary with confidence `min(0.85, 0.5 + relevant/total)`. -/
def fallback_query (query_text : String) (evidence_items : List EvidenceItem) :
    String × ℚ :=
  let relevant := relevantItems query_text evidence_items
  if relevant.isEmpty then (noMatchTemplate query_text, 0.3)
  else
    (generate_fallback_summary query_text relevant,
     min 0.85 (0.5 + (relevant.length : ℚ) / (evidence_items.length : ℚ)))

/-! ## Query entry points (ai_service.py lines 196-507, 693-738)

The external LLM HTTP round trips are the one capability the engine does
not own; they are abstracted as outcome parameters.  `ExtOutcome.fail`
covers every failure the source maps to the fallback path (exception,
non-200 status, missing candidates); `ExtOutcome.ok text` is a successful
plain-text generation.  The Django response cache (lines 710-736) is
modelled as empty, as in a fresh request. -/

/-- Outcome of one external text-generation call. -/
inductive ExtOutcome where
  | fail
  | ok (text : String)
deriving Repr, DecidableEq

/-- The configuration flags of `AIService.__init__`
(`ai_service.py` lines 201-207). -/
structure AIConfig where
  use_gemini : Bool
  use_openai : Bool
  enable_agent_mode : Bool
deriving Repr, DecidableEq

/-- Python `int()` on the non-negative confidences of this file (truncation
towards zero, which is the floor for non-negative values). -/
def pyInt (q : ℚ) : ℤ := ⌊q⌋

/-- The confidence footer appended to successful generations
(`ai_service.py` lines 862-863 and 942-943). -/
def confidenceFooter (confidence : ℚ) (explanation : String) : String :=
  "\n\n---\n\n> **Confidence: " ++ toString (pyInt (confidence * 100)) ++
  "%** — " ++ explanation

/-- The `_query_gemini` call (`ai_service.py` lines 740-873): on success the
generated text plus the confidence footer, on any failure the fallback. -/
def query_gemini (ext : ExtOutcome) (query_text : String)
    (evidence_items : List EvidenceItem) : String × ℚ :=
  match ext with
  | .fail => fallback_query query_text evidence_items
  | .ok text =>
    let c := calculate_confidence text evidence_items
    (text ++ confidenceFooter c.1 c.2, c.1)

/-- The `_query_openai` call (`ai_service.py` lines 875-949), which shapes
its result the same way. -/
def query_openai (ext : ExtOutcome) (query_text : String)
    (evidence_items : List EvidenceItem) : String × ℚ :=
  match ext with
  | .fail => fallback_query query_text evidence_items
  | .ok text =>
    let c := calculate_confidence text evidence_items
    (text ++ confidenceFooter c.1 c.2, c.1)

/-- The `process_natural_language_query` dispatch
(`ai_service.py` lines 726-732). -/
def process_natural_language_query (cfg : AIConfig) (ext : ExtOutcome)
    (query_text : String) (evidence_items : List EvidenceItem) : String × ℚ :=
  if cfg.use_gemini then query_gemini ext query_text evidence_items
  else if cfg.use_openai then query_openai ext query_text evidence_items
  else fallback_query query_text evidence_items

/-- The `_check_query_ambiguity` heuristic
(`ai_service.py` lines 530-554). -/
def check_query_ambiguity (query_text : String)
    (evidence_items : List EvidenceItem) : Bool × Bool :=
  let query_lower := lowerStr query_text
  let ambiguous_patterns :=
    ["analyze everything", "analyze the whole", "analyze all",
     "find any", "show me everything", "tell me everything",
     "what can you tell me", "give me all", "find correlation",
     "analyze this file", "analyze the file"]
  let is_ambiguous := ambiguous_patterns.any (fun p => strContains query_lower p)
  let is_ambiguous := is_ambiguous ||
    (50 < evidence_items.length && (pySplitWs query_text).length < 5)
  (is_ambiguous, is_ambiguous && 20 < evidence_items.length)

/-- The `_propose_clarification` builder (`ai_service.py` lines 556-620):
evidence-type counts over the first 50 items sorted descending, up to 5
entity types, and the fixed investigation-plan text. -/
def propose_clarification (query_text : String)
    (evidence_items : List EvidenceItem) : String :=
  let sample := evidence_items.take 50
  let evidence_types := sample.foldl (fun m it => bumpCount m it.type) []
  let entity_types := sample.foldl (fun m it =>
    it.entities.foldl (fun m e => if m.contains e.type then m else m ++ [e.type]) m) []
  let clarification :=
    "## 🔍 Let\x27s Focus Your Investigation\n\n" ++
    "I understand you want to \"" ++ query_text ++
    "\". That\x27s a broad request, so let me propose a structured approach to get you the most valuable insights.\n\n" ++
    "### 📊 What I Found in the Evidence\n\n" ++
    "I have **" ++ toString evidence_items.length ++
    " evidence items** to analyze:\n"
  let clarification := clarification ++
    (if !evidence_types.isEmpty then
      "\n**Evidence Types:**\n" ++
      joinParts "" ((sortDescBy Prod.snd evidence_types).map (fun kv =>
        "- " ++ pyCapitalize kv.1 ++ ": " ++ toString kv.2 ++ " items\n"))
    else "")
  let clarification := clarification ++
    (if !entity_types.isEmpty then
      "\n**Key Entity Types:**\n" ++
      joinParts "" ((entity_types.take 5).map (fun t => "- " ++ t ++ "\n"))
    else "")
  clarification ++
    "\n\n### 🎯 Proposed Investigation Plan\n\n" ++
    "I suggest we break this down into focused steps:\n\n" ++
    "1. **First, identify key entities** - Who are the main people/organizations involved?\n" ++
    "2. **Then, analyze their connections** - How are they related? What communications exist?\n" ++
    "3. **Look for patterns** - Any unusual timing, locations, or financial activity?\n" ++
    "4. **Timeline analysis** - When did key events occur?\n\n" ++
    "### 💡 You Can Also Ask Specific Questions Like:\n\n" ++
    "- \"Who are the most frequently mentioned entities?\"\n" ++
    "- \"Show me a network graph of connections\"\n" ++
    "- \"Find all financial transactions\"\n" ++
    "- \"What happened on [specific date]?\"\n" ++
    "- \"Show me communications between [person A] and [person B]\"\n\n" ++
    "**Would you like me to start with step 1 (identifying key entities), or would you prefer to ask a more specific question?**\n"

/-- The text-rewrite of `process_query_with_agent` when the model answered a
visualization request with text (`ai_service.py` lines 475-487). -/
def vizTipWrap (summary : String) : String :=
  "## 🔍 Analysis Results\n\n" ++
  "I understand you\x27re asking for a visualization. Let me provide what I found:\n\n" ++
  summary ++
  "\n\n---\n\n" ++
  "> **💡 Tip:** I can generate actual interactive visualizations! Try asking:\n" ++
  "> - \"Generate a network graph\" (for relationship visualization)\n" ++
  "> - \"Create a timeline\" (for chronological view)\n" ++
  "> \n" ++
  "> The visualization will appear automatically if I have enough data to work with."

/-- Outcome of the first agent-mode reasoning call: failure (exception or
non-200 status, `ai_service.py` lines 325-327 and 502-507) or a pure text
response with no tool calls (lines 465-496).  The claims below concern the
absent and failing capability, which never reaches the tool-execution
branch of the loop (lines 337-463), so a tool-requesting outcome is not
modelled. -/
inductive AgentFirstCall where
  | fail
  | text (t : String)
deriving Repr, DecidableEq

/-- The `process_query_with_agent` entry (`ai_service.py` lines 209-507) on
the modelled outcomes: fallback dispatch when the capability or agent mode
is off (lines 220-222), the ambiguity short-circuit with confidence 0.75
(lines 232-238), fallback on a failing call, and the direct-text terminal
state with heuristic confidence.  The embedded visualization component is
`none` on all these paths. -/
def process_query_with_agent (cfg : AIConfig) (first : AgentFirstCall)
    (ext : ExtOutcome) (query_text : String)
    (evidence_items : List EvidenceItem) : String × ℚ × Option String :=
  if !cfg.use_gemini || !cfg.enable_agent_mode then
    let r := process_natural_language_query cfg ext query_text evidence_items
    (r.1, r.2, none)
  else
    let amb := check_query_ambiguity query_text evidence_items
    if amb.1 && amb.2 then
      (propose_clarification query_text evidence_items, 0.75, none)
    else
      match first with
      | .fail =>
        let r := process_natural_language_query cfg ext query_text evidence_items
        (r.1, r.2, none)
      | .text t =>
        let summary :=
          if ["graph", "network", "timeline", "visualiz"].any
              (fun w => strContains (lowerStr query_text) w) &&
             (strContains (lowerStr t) "cannot generate" ||
              strContains (lowerStr t) "textual representation") then
            vizTipWrap t
          else t
        (summary, (calculate_confidence summary evidence_items).1, none)

/-! ## Lookup helpers and concrete inputs for the claims -/

/-- The mention count the `nodes` dict holds for a node id (0 when absent). -/
def mentionsOf (nodes : List GraphNode) (x : String) : Nat :=
  ((nodes.find? (fun n => n.id == x)).map GraphNode.mentions).getD 0

/-- The co-occurrence count the `entity_cooccurrence` dict holds for a pair
key (0 when absent). -/
def coocCountOf (cooc : List ((String × String) × CoocData))
    (p : String × String) : Nat :=
  ((cooc.find? (fun e => e.1 == p)).map (fun e => e.2.count)).getD 0

/-- The accumulated match list the `pattern_matches` dict holds for a
pattern name (empty when absent). -/
def matchesOf (pm : List (String × List String)) (name : String) :
    List String :=
  ((pm.find? (fun e => e.1 == name)).map Prod.snd).getD []

/-- Modelled from the spec: the confidence formula of section 4.6, which
adds the 0.05 bonus when at least 5 evidence items were available
("+0.05 if >=5 evidence items were available and the text mentions
pattern/connection/relationship language"), everything else as the code
computes it.  Stated only to compare against `calculate_confidence`. -/
def calculate_confidence_spec (summary : String)
    (evidence_items : List EvidenceItem) : ℚ :=
  min 0.95 (0.7 +
    (if 0 < evidence_items.countP (fun item => strContains summary item.id)
      then 0.1 else 0) +
    (if 200 < summary.length then 0.1 else 0) +
    (if 5 ≤ evidence_items.length ∧
        (["pattern", "connection", "relationship"].any
          (fun w => strContains (lowerStr summary) w)) = true
      then 0.05 else 0))

/-- An evidence item with no matching content, for concrete evaluations. -/
def plainItem (i : String) : EvidenceItem :=
  { id := i, type := "t", source := "s", device := "d", timestamp := "",
    content := "", entities := [] }

/-- Five plain evidence items (the >5 boundary of the confidence bonus). -/
def fiveItems : List EvidenceItem :=
  [plainItem "a1", plainItem "a2", plainItem "a3", plainItem "a4",
   plainItem "a5"]

/-- An evidence item whose entity list mentions the same entity twice. -/
def dupItem : EvidenceItem :=
  { id := "1", type := "message", source := "Unknown", device := "Unknown",
    timestamp := "", content := "",
    entities := [⟨"t", "AAA"⟩, ⟨"t", "AAA"⟩, ⟨"t", "BBB"⟩] }

/-- A one-item evidence set built from `dupItem`. -/
def dupEvidence : List EvidenceItem := [dupItem]

/-- A two-digit label for the cap-enforcement input. -/
def xVal (k : Nat) : String := "X" ++ (if k < 10 then "0" else "") ++ toString k

/-- One item of the cap-enforcement input: entities AAA, BBB and the k-th
satellite. -/
def capItem (k : Nat) : EvidenceItem :=
  { id := toString k, type := "message", source := "Unknown",
    device := "Unknown", timestamp := "", content := "",
    entities := [⟨"t", "AAA"⟩, ⟨"t", "BBB"⟩, ⟨"t", xVal k⟩] }

/-- 29 items over 31 entities, producing 59 raw edges and 57 surviving
edges: both the 30-node and the 50-edge caps bind. -/
def capEvidence : List EvidenceItem :=
  (List.range 29).map (fun k => capItem (k + 1))

/-- A numbered conversation exchange. -/
def exch (n : String) : Exchange := ⟨"q" ++ n, "r" ++ n, "", ""⟩

/-- Five exchanges against a capacity-3 manager. -/
def fiveExchanges : List Exchange :=
  [exch "1", exch "2", exch "3", exch "4", exch "5"]

/-- Folding a whole exchange list into a manager. -/
def addAll (cm : ConversationManager) (es : List Exchange) :
    ConversationManager :=
  es.foldl (fun c e => add_exchange c e.query e.response e.timestamp e.metadata) cm

/-- A tool runner that always succeeds. -/
def runOk : String → String → Except String String := fun _ _ => .ok "data"

/-- A trivial user-message generator. -/
def gum0 : String → String → String → String := fun _ _ _ => "ok"

/-- The pass-through parameters of the legacy-links probe: non-empty
`nodes`, empty `edges`, non-empty `links`. -/
def linksParams : NetworkGraphParams := ⟨["n1"], [], ["l1"]⟩

/-- A configuration with no reasoning capability. -/
def cfgOff : AIConfig := ⟨false, false, true⟩

/-- A `findall` that matches whole contents as crypto addresses. -/
def findallW : String → String → List String :=
  fun name content => if name == "crypto_address" then [content] else []

/-- An `hourKeyOf` for which no timestamp parses. -/
def hourKey0 : String → Option String := fun _ => none

/-- An evidence item whose content is one synthetic match for the
pattern-detection witness. -/
def c6Item (i c : String) : EvidenceItem :=
  { id := i, type := "t", source := "s", device := "d", timestamp := "",
    content := c, entities := [] }

/-- Two items with distinct contents: two unique crypto-address matches
under `findallW`. -/
def c6Evidence : List EvidenceItem := [c6Item "1" "ca1", c6Item "2" "ca2"]

/-- An evidence item with a timestamp, for the date-filter probe. -/
def tsItem : EvidenceItem :=
  { id := "2", type := "message", source := "s", device := "d",
    timestamp := "2024-03-01T10:00:00", content := "", entities := [] }

/-- Search parameters with only a start bound. -/
def startOnlyParams : SearchParams :=
  { query := "", evidence_types := [], date_range := some ⟨"2020", ""⟩,
    limit := 50 }

/-- Search parameters with only an end bound. -/
def endOnlyParams : SearchParams :=
  { query := "", evidence_types := [], date_range := some ⟨"", "2025"⟩,
    limit := 50 }

/-! ## Basic string lemmas -/

lemma string_data_inj {s t : String} (h : s.data = t.data) : s = t := by
  cases s; cases t; cases h; rfl

lemma append_ne_empty_left (s t : String) (h : s ≠ "") : s ++ t ≠ "" := by
  intro he
  have hd := congrArg String.data he
  rw [String.data_append] at hd
  have hs : s.data = [] := (List.append_eq_nil.mp (by simpa using hd)).1
  exact h (string_data_inj (by simpa using hs))

lemma joinParts_ne_empty (sep a : String) (l : List String) (h : a ≠ "") :
    joinParts sep (a :: l) ≠ "" := by
  cases l with
  | nil => simpa [joinParts] using h
  | cons b r =>
    rw [joinParts]
    exact append_ne_empty_left (a ++ sep) (joinParts sep (b :: r))
      (append_ne_empty_left a sep h)

lemma pyLt_empty_left (s : String) (h : s ≠ "") : pyLt "" s = true := by
  show strLtData ("" : String).data s.data = true
  cases hs : s.data with
  | nil => exact absurd (string_data_inj (by simp [hs])) h
  | cons c cs => rfl

lemma pyLt_empty_right (s : String) : pyLt s "" = false := by
  show strLtData s.data ("" : String).data = false
  cases s.data <;> rfl

/-! ## Ring-buffer lemmas (claim C8) -/

lemma takeLast_length_le (n : Nat) (l : List α) : (takeLast n l).length ≤ n := by
  simp [takeLast]

lemma takeLast_of_length_le {n : Nat} {l : List α} (h : l.length ≤ n) :
    takeLast n l = l := by
  unfold takeLast
  rw [List.take_of_length_le (by simpa using h), List.reverse_reverse]

lemma takeLast_append_takeLast (n : Nat) (l es : List α) :
    takeLast n (takeLast n l ++ es) = takeLast n (l ++ es) := by
  simp only [takeLast, List.reverse_append, List.reverse_reverse]
  congr 1
  rw [List.take_append_eq_append_take, List.take_append_eq_append_take]
  congr 1
  rw [List.take_take]
  congr 1
  omega

lemma takeLast_eq_drop (n : Nat) (l : List α) (h : n ≤ l.length) :
    takeLast n l = l.drop (l.length - n) := by
  unfold takeLast
  set k := l.length - n with hk
  have h2 : (l.drop k).reverse.length = n := by simp [hk]; omega
  calc (l.reverse.take n).reverse
      = (((l.take k ++ l.drop k).reverse).take n).reverse := by
        rw [List.take_append_drop]
    _ = (((l.drop k).reverse ++ (l.take k).reverse).take n).reverse := by
        rw [List.reverse_append]
    _ = (((l.drop k).reverse ++ (l.take k).reverse).take
          ((l.drop k).reverse.length)).reverse := by rw [h2]
    _ = ((l.drop k).reverse).reverse := by rw [List.take_left]
    _ = l.drop k := List.reverse_reverse _

lemma addAll_exchanges : ∀ (es : List Exchange) (cm : ConversationManager),
    cm.exchanges.length ≤ cm.max_exchanges →
    (addAll cm es).exchanges = takeLast cm.max_exchanges (cm.exchanges ++ es) ∧
    (addAll cm es).max_exchanges = cm.max_exchanges := by
  intro es
  induction es with
  | nil =>
    intro cm h
    exact ⟨by simp [addAll, takeLast_of_length_le h], rfl⟩
  | cons e es ih =>
    intro cm h
    have step : addAll cm (e :: es) =
        addAll (add_exchange cm e.query e.response e.timestamp e.metadata) es := rfl
    have hlen : (add_exchange cm e.query e.response e.timestamp e.metadata).exchanges.length ≤
        (add_exchange cm e.query e.response e.timestamp e.metadata).max_exchanges :=
      takeLast_length_le _ _
    obtain ⟨h1, h2⟩ := ih _ hlen
    refine ⟨?_, by rw [step, h2]; rfl⟩
    rw [step, h1]
    show takeLast cm.max_exchanges
        (takeLast cm.max_exchanges (cm.exchanges ++ [e]) ++ es) = _
    rw [takeLast_append_takeLast]
    congr 1
    simp

/-- Claim C8: after adding `max_exchanges + k` exchanges (`k > 0`) to a
fresh ConversationManager with capacity `max_exchanges`, the stored history
is exactly the most recent `max_exchanges` exchanges in insertion order, its
length is `max_exchanges`, and `get_conversation_history_for_prompt`
reflects exactly those exchanges. -/
theorem C8_ring_buffer (maxE k : Nat) (es : List Exchange)
    (hlen : es.length = maxE + k) (hk : 0 < k) :
    (addAll (ConversationManager.init maxE) es).exchanges = es.drop k ∧
    (addAll (ConversationManager.init maxE) es).exchanges.length = maxE ∧
    get_conversation_history_for_prompt (addAll (ConversationManager.init maxE) es) =
      (es.drop k).flatMap (fun ex =>
        [⟨"user", ex.query⟩, ⟨"assistant", strTake ex.response 500⟩]) := by
  obtain ⟨h1, _⟩ := addAll_exchanges es (ConversationManager.init maxE) (by simp [ConversationManager.init])
  have h1' : (addAll (ConversationManager.init maxE) es).exchanges = takeLast maxE es := by
    simpa [ConversationManager.init] using h1
  have hd : takeLast maxE es = es.drop k := by
    rw [takeLast_eq_drop maxE es (by omega)]
    congr 1
    omega
  refine ⟨h1'.trans hd, ?_, ?_⟩
  · rw [h1'.trans hd]
    simp [hlen]
  · rw [get_conversation_history_for_prompt, h1'.trans hd]

/-- Witness for C8 at capacity 3 with 5 exchanges: exactly E3, E4, E5
survive. -/
theorem C8_ring_buffer_witness :
    fiveExchanges.length = 3 + 2 ∧ 0 < 2 ∧
    (addAll (ConversationManager.init 3) fiveExchanges).exchanges =
      fiveExchanges.drop 2 := by
  refine ⟨by decide, by decide, ?_⟩
  exact (C8_ring_buffer 3 2 fiveExchanges (by decide) (by decide)).1

/-! ## Execution-log lemmas (claim C3) -/

lemma execute_log_grows (run : String → String → Except String String)
    (gum : String → String → String → String) (now : Nat) (log : List LogEntry)
    (tool_name parameters : String) :
    log <+: (execute_tool run gum now log tool_name parameters).2 := by
  unfold execute_tool
  by_cases h : tool_name ∈ tool_methods
  · rw [if_neg (by simp [h])]
    cases run tool_name parameters <;> exact List.prefix_append _ _
  · rw [if_pos (by simp [h])]

lemma executeMany_grows (run : String → String → Except String String)
    (gum : String → String → String → String) (now : Nat) :
    ∀ (calls : List (String × String)) (log : List LogEntry),
      log <+: executeMany run gum now log calls := by
  intro calls
  induction calls with
  | nil => intro log; exact List.prefix_refl _
  | cons c rest ih =>
    intro log
    exact (execute_log_grows run gum now log c.1 c.2).trans (ih _)

/-- Counterexample to claim C3 as stated: a call with an unknown tool name
appends nothing to the execution log (the unknown-tool branch of
`execute_tool` returns before the logging code), so not every call appends
exactly one entry. -/
theorem C3_counterexample :
    (execute_tool runOk gum0 0 [] "nonexistent_tool" "p").2 = [] := by decide

/-- Claim C3 amended: the log is append-only (the old log is a prefix of
the new one, across any call sequence); a call with a known tool name
appends exactly one entry recording the tool name, the parameters and the
success flag, with the timing on success entries and the error text (no
timing) on failure entries; a call with an unknown tool name appends
nothing. -/
theorem C3_execution_log (run : String → String → Except String String)
    (gum : String → String → String → String) (now : Nat) (log : List LogEntry)
    (tool_name parameters : String) :
    (log <+: (execute_tool run gum now log tool_name parameters).2) ∧
    (tool_name ∈ tool_methods →
      ∃ entry : LogEntry,
        (execute_tool run gum now log tool_name parameters).2 = log ++ [entry] ∧
        entry.tool = tool_name ∧ entry.parameters = parameters ∧
        ((entry.success = true) ↔ ∃ d, run tool_name parameters = .ok d) ∧
        (∀ d, run tool_name parameters = .ok d →
          entry.time = some now ∧ entry.error = none) ∧
        (∀ e, run tool_name parameters = .error e →
          entry.error = some e ∧ entry.time = none)) ∧
    (tool_name ∉ tool_methods →
      (execute_tool run gum now log tool_name parameters).2 = log) ∧
    (∀ calls : List (String × String), log <+: executeMany run gum now log calls) := by
  refine ⟨execute_log_grows run gum now log tool_name parameters, ?_, ?_, ?_⟩
  · intro hmem
    unfold execute_tool
    rw [if_neg (by simp [hmem])]
    cases hrun : run tool_name parameters with
    | ok d =>
      refine ⟨⟨tool_name, parameters, true, some now, none⟩, rfl, rfl, rfl,
        ⟨fun _ => ⟨d, rfl⟩, fun _ => rfl⟩, fun d' _ => ⟨rfl, rfl⟩, ?_⟩
      intro e he
      simp at he
    | error e =>
      refine ⟨⟨tool_name, parameters, false, none, some e⟩, rfl, rfl, rfl, ?_,
        ?_, ?_⟩
      · constructor
        · intro hfalse; simp at hfalse
        · rintro ⟨d, hd⟩; simp at hd
      · intro d hd; simp at hd
      · intro e' he'
        injection he' with h
        subst h
        exact ⟨rfl, rfl⟩
  · intro hmem
    unfold execute_tool
    rw [if_pos (by simp [hmem])]
  · exact fun calls => executeMany_grows run gum now calls log

/-! ## Date-filter lemmas (claim C10) -/

lemma mem_searchLoop (p : SearchParams) :
    ∀ (rest acc : List EvidenceItem) (it : EvidenceItem),
      it ∈ searchLoop p acc rest → it ∈ acc ∨ matchesItem p it = true := by
  intro rest
  induction rest with
  | nil => exact fun acc it h => .inl h
  | cons x xs ih =>
    intro acc it h
    by_cases hm : matchesItem p x = true
    · rw [searchLoop, if_pos hm] at h
      by_cases hl : p.limit ≤ acc.length + 1
      · rw [if_pos hl] at h
        rcases List.mem_append.mp h with h' | h'
        · exact .inl h'
        · exact .inr (by rw [List.mem_singleton.mp h']; exact hm)
      · rw [if_neg hl] at h
        rcases ih (acc ++ [x]) it h with h' | h'
        · rcases List.mem_append.mp h' with h'' | h''
          · exact .inl h''
          · exact .inr (by rw [List.mem_singleton.mp h'']; exact hm)
        · exact .inr h'
    · rw [searchLoop, if_neg hm] at h
      exact ih acc it h

lemma dateCheck_start_excludes (d : DateRange) (it : EvidenceItem)
    (hs : d.start ≠ "") (ht : it.timestamp = "") :
    dateCheck (some d) it = false := by
  unfold dateCheck
  have h1 : pyLt it.timestamp d.start = true := by
    rw [ht]; exact pyLt_empty_left d.start hs
  simp [h1, hs]

lemma dateCheck_end_only (d : DateRange) (it : EvidenceItem)
    (hs : d.start = "") (ht : it.timestamp = "") :
    dateCheck (some d) it = true := by
  unfold dateCheck
  simp [hs, ht, pyLt_empty_right]

/-- Claim C10: under a date range with a non-empty start bound, every item
returned by `search_evidence` has a non-empty timestamp (timestamp-less
items are excluded, because the empty timestamp string compares below any
non-empty start); under an end-only date range the date filter passes every
timestamp-less item, so such items are excluded only by the text or type
filters. -/
theorem C10_date_filter (E : List EvidenceItem) (p : SearchParams)
    (d : DateRange) (hdr : p.date_range = some d) :
    (d.start ≠ "" → ∀ it ∈ search_evidence E p, it.timestamp ≠ "") ∧
    (d.start = "" → ∀ it : EvidenceItem, it.timestamp = "" →
      matchesItem p it = (queryCheck (lowerStr p.query) it &&
        typeCheck (p.evidence_types.map lowerStr) it)) := by
  constructor
  · intro hs it hit hts
    rcases mem_searchLoop p E [] it hit with h | h
    · simp at h
    · have hd : dateCheck p.date_range it = true := by
        simp only [matchesItem, Bool.and_eq_true] at h
        exact h.2
      rw [hdr, dateCheck_start_excludes d it hs hts] at hd
      simp at hd
  · intro hs it hts
    unfold matchesItem
    rw [hdr, dateCheck_end_only d it hs hts, Bool.and_true]

/-- Witness for C10: with a start-only range over one timestamp-less item
and one timestamped item, every result has a timestamp. -/
theorem C10_date_filter_witness :
    startOnlyParams.date_range = some ⟨"2020", ""⟩ ∧
    (∀ it ∈ search_evidence [plainItem "a1", tsItem] startOnlyParams,
      it.timestamp ≠ "") := by
  refine ⟨rfl, ?_⟩
  exact (C10_date_filter [plainItem "a1", tsItem] startOnlyParams
    ⟨"2020", ""⟩ rfl).1 (by decide)

/-! ## Pass-through lemmas (claim C4) -/

/-- Counterexample to claim C4 as stated: parameters carrying a non-empty
`nodes` list together with a non-empty legacy `links` list (but no `edges`)
are not passed through — `generate_network_graph` never reads `links` and
recomputes the graph instead. -/
theorem C4_counterexample :
    generate_network_graph linksParams [] = .computed (computeGraph []) ∧
    ∀ nodes edges nc ec,
      generate_network_graph linksParams [] ≠ .provided nodes edges nc ec := by
  constructor
  · rfl
  · intro nodes edges nc ec h
    rw [show generate_network_graph linksParams [] = .computed (computeGraph [])
      from rfl] at h
    simp at h

/-- Claim C4 amended: the pass-through branch fires exactly when the
supplied `nodes` and `edges` lists are both non-empty, in which case the
supplied data is returned unchanged under the `nodes`/`edges` keys; the
legacy `links` key is ignored by this function (it never influences the
result), and when `nodes` or `edges` is empty the graph is computed from
the evidence instead. -/
theorem C4_passthrough (params : NetworkGraphParams)
    (evidence : List EvidenceItem) :
    (params.nodes ≠ [] → params.edges ≠ [] →
      generate_network_graph params evidence =
        .provided params.nodes params.edges params.nodes.length
          params.edges.length) ∧
    (params.nodes = [] →
      generate_network_graph params evidence = .computed (computeGraph evidence)) ∧
    (params.edges = [] →
      generate_network_graph params evidence = .computed (computeGraph evidence)) ∧
    (∀ links links' : List String,
      generate_network_graph { params with links := links } evidence =
        generate_network_graph { params with links := links' } evidence) := by
  refine ⟨?_, ?_, ?_, fun links links' => rfl⟩
  · intro hn he
    unfold generate_network_graph
    rw [if_pos]
    simp [List.isEmpty_iff, hn, he]
  · intro hn
    unfold generate_network_graph
    rw [if_neg]
    simp [List.isEmpty_iff, hn]
  · intro he
    unfold generate_network_graph
    rw [if_neg]
    simp [List.isEmpty_iff, he]

/-! ## Confidence heuristic (claim C5) -/

/-- Counterexample to claim C5 as stated: with exactly 5 evidence items and
a summary mentioning pattern language, the code awards no 0.05 bonus
(its condition is `len(evidence_items) > 5`, not "at least 5"), so the
computed confidence is 0.7 while the spec formula gives 0.75. -/
theorem C5_counterexample :
    (calculate_confidence "pattern" fiveItems).1 = 0.7 ∧
    calculate_confidence_spec "pattern" fiveItems = 0.75 ∧
    (0.7 : ℚ) ≠ 0.75 := by
  refine ⟨?_, ?_, by norm_num⟩
  · have h1 : ¬ (0 < fiveItems.countP
        (fun item => strContains "pattern" item.id)) := by decide
    have h2 : ¬ (200 < ("pattern" : String).length) := by decide
    have h3 : ¬ ((5 < fiveItems.length &&
        ["pattern", "connection", "relationship"].any
          (fun w => strContains (lowerStr "pattern") w)) = true) := by decide
    simp only [calculate_confidence]
    rw [if_neg h1, if_neg h2, if_neg h3]
    norm_num
  · have h1 : ¬ (0 < fiveItems.countP
        (fun item => strContains "pattern" item.id)) := by decide
    have h2 : ¬ (200 < ("pattern" : String).length) := by decide
    have h3 : 5 ≤ fiveItems.length ∧
        (["pattern", "connection", "relationship"].any
          (fun w => strContains (lowerStr "pattern") w)) = true := by decide
    simp only [calculate_confidence_spec]
    rw [if_neg h1, if_neg h2, if_pos h3]
    norm_num

/-- Claim C5 amended: the non-agentic confidence equals the capped additive
heuristic base 0.7, +0.1 for a cited evidence id, +0.1 for length over 200
characters, +0.05 when MORE than 5 evidence items were available (at least
6, not "at least 5") and the text mentions pattern/connection/relationship
language, capped at 0.95. -/
theorem C5_confidence_formula (summary : String)
    (evidence_items : List EvidenceItem) :
    (calculate_confidence summary evidence_items).1 =
      min 0.95 (0.7 +
        (if 0 < evidence_items.countP (fun item => strContains summary item.id)
          then (0.1 : ℚ) else 0) +
        (if 200 < summary.length then (0.1 : ℚ) else 0) +
        (if (5 < evidence_items.length &&
            ["pattern", "connection", "relationship"].any
              (fun w => strContains (lowerStr summary) w)) = true
          then (0.05 : ℚ) else 0)) := by
  simp only [calculate_confidence]
  split_ifs <;> norm_num

/-! ## Generic dict-update lemmas

The three insertion-ordered dicts of the source (`nodes`,
`entity_cooccurrence`, `pattern_matches`) are all updated by the same
insert-or-modify pattern; these lemmas describe one update's effect on
`find?` and on the key list. -/

section AssocBump

variable {κ α : Type} [BEq κ] [LawfulBEq κ]

lemma assoc_find?_bump (keyOf : α → κ) (l : List α) (k x : κ) (upd : α → α)
    (mk : α) (hupdkey : ∀ a, keyOf (upd a) = keyOf a) (hmk : keyOf mk = k) :
    ((if l.any (fun a => keyOf a == k) then
        l.map (fun a => if keyOf a == k then upd a else a)
      else l ++ [mk]).find? (fun a => keyOf a == x)) =
    (match l.find? (fun a => keyOf a == x) with
     | some a₀ => some (if keyOf a₀ == k then upd a₀ else a₀)
     | none => if k == x then some mk else none) := by
  by_cases hp : l.any (fun a => keyOf a == k) = true
  · rw [if_pos hp, List.find?_map]
    have hcomp : ((fun a => keyOf a == x) ∘
        (fun a => if keyOf a == k then upd a else a)) =
        (fun a => keyOf a == x) := by
      funext a
      by_cases h : (keyOf a == k) = true <;> simp [h, hupdkey]
    rw [hcomp]
    cases hf : l.find? (fun a => keyOf a == x) with
    | some a₀ => simp
    | none =>
      have hkx : (k == x) = false := by
        by_contra h'
        have hkx' : k = x := by
          have := Bool.not_eq_false (k == x) ▸ h'
          exact eq_of_beq (by simpa using h')
        obtain ⟨a, ha, hak⟩ := List.any_eq_true.mp hp
        have := List.find?_eq_none.mp hf a ha
        rw [← hkx'] at this
        exact this hak
      simp [hkx]
  · rw [if_neg hp, List.find?_append]
    have hall : ∀ a ∈ l, (keyOf a == k) = false := by
      intro a ha
      by_contra h'
      exact hp (List.any_eq_true.mpr ⟨a, ha, by simpa using h'⟩)
    cases hf : l.find? (fun a => keyOf a == x) with
    | some a₀ =>
      have hk : (keyOf a₀ == k) = false := hall a₀ (List.mem_of_find?_eq_some hf)
      simp [hk]
    | none =>
      show (List.find? (fun a => keyOf a == x) [mk]) = _
      by_cases hkx : (k == x) = true
      · simp [List.find?, hmk, hkx]
      · have hkx' : (k == x) = false := by simpa using hkx
        simp [List.find?, hmk, hkx']

lemma assoc_keys_bump (keyOf : α → κ) (l : List α) (k : κ) (upd : α → α)
    (mk : α) (hupdkey : ∀ a, keyOf (upd a) = keyOf a) (hmk : keyOf mk = k) :
    ((if l.any (fun a => keyOf a == k) then
        l.map (fun a => if keyOf a == k then upd a else a)
      else l ++ [mk]).map keyOf = l.map keyOf) ∨
    ((if l.any (fun a => keyOf a == k) then
        l.map (fun a => if keyOf a == k then upd a else a)
      else l ++ [mk]).map keyOf = l.map keyOf ++ [k] ∧
      ∀ a ∈ l, (keyOf a == k) = false) := by
  by_cases hp : l.any (fun a => keyOf a == k) = true
  · left
    rw [if_pos hp, List.map_map]
    congr 1
    funext a
    by_cases h : (keyOf a == k) = true <;> simp [Function.comp, h, hupdkey]
  · right
    constructor
    · rw [if_neg hp]
      simp [hmk]
    · intro a ha
      by_contra h'
      exact hp (List.any_eq_true.mpr ⟨a, ha, by simpa using h'⟩)

lemma assoc_find?_bump' (keyOf : α → κ) (l res : List α) (k x : κ)
    (upd : α → α) (mk : α)
    (hres : res = if l.any (fun a => keyOf a == k) then
        l.map (fun a => if keyOf a == k then upd a else a)
      else l ++ [mk])
    (hupdkey : ∀ a, keyOf (upd a) = keyOf a) (hmk : keyOf mk = k) :
    res.find? (fun a => keyOf a == x) =
    (match l.find? (fun a => keyOf a == x) with
     | some a₀ => some (if keyOf a₀ == k then upd a₀ else a₀)
     | none => if k == x then some mk else none) := by
  subst hres
  exact assoc_find?_bump keyOf l k x upd mk hupdkey hmk

lemma assoc_keys_bump' (keyOf : α → κ) (l res : List α) (k : κ)
    (upd : α → α) (mk : α)
    (hres : res = if l.any (fun a => keyOf a == k) then
        l.map (fun a => if keyOf a == k then upd a else a)
      else l ++ [mk])
    (hupdkey : ∀ a, keyOf (upd a) = keyOf a) (hmk : keyOf mk = k) :
    (res.map keyOf = l.map keyOf) ∨
    (res.map keyOf = l.map keyOf ++ [k] ∧ ∀ a ∈ l, (keyOf a == k) = false) := by
  subst hres
  exact assoc_keys_bump keyOf l k upd mk hupdkey hmk

end AssocBump

/-! ## Stable descending sort lemmas -/

section SortDesc

variable {α : Type} (k : α → Nat)

lemma insertDescBy_perm (x : α) : ∀ (l : List α),
    List.Perm (insertDescBy k x l) (x :: l) := by
  intro l
  induction l with
  | nil => rfl
  | cons y ys ih =>
    rw [insertDescBy]
    by_cases h : k x < k y
    · rw [if_pos h]
      exact (ih.cons y).trans (List.Perm.swap x y ys)
    · rw [if_neg h]

lemma sortDescBy_perm : ∀ (l : List α), List.Perm (sortDescBy k l) l := by
  intro l
  induction l with
  | nil => rfl
  | cons x xs ih =>
    rw [sortDescBy]
    exact (insertDescBy_perm k x (sortDescBy k xs)).trans (ih.cons x)

lemma mem_sortDescBy {x : α} {l : List α} (h : x ∈ sortDescBy k l) : x ∈ l :=
  (sortDescBy_perm k l).mem_iff.mp h

lemma length_sortDescBy (l : List α) : (sortDescBy k l).length = l.length :=
  (sortDescBy_perm k l).length_eq

lemma insertDescBy_pairwise (x : α) (l : List α)
    (h : l.Pairwise (fun a b => k b ≤ k a)) :
    (insertDescBy k x l).Pairwise (fun a b => k b ≤ k a) := by
  induction l with
  | nil => simp [insertDescBy]
  | cons y ys ih =>
    rw [insertDescBy]
    rcases List.pairwise_cons.mp h with ⟨hy, hys⟩
    by_cases hc : k x < k y
    · rw [if_pos hc]
      refine List.pairwise_cons.mpr ⟨?_, ih hys⟩
      intro z hz
      rcases List.mem_cons.mp ((insertDescBy_perm k x ys).mem_iff.mp hz) with rfl | hz'
      · exact le_of_lt hc
      · exact hy z hz'
    · rw [if_neg hc]
      refine List.pairwise_cons.mpr ⟨?_, h⟩
      intro z hz
      rcases List.mem_cons.mp hz with rfl | hz'
      · omega
      · exact le_trans (hy z hz') (by omega)

lemma sortDescBy_pairwise : ∀ (l : List α),
    (sortDescBy k l).Pairwise (fun a b => k b ≤ k a) := by
  intro l
  induction l with
  | nil => simp [sortDescBy]
  | cons x xs ih => exact insertDescBy_pairwise k x (sortDescBy k xs) ih

lemma insertDescBy_filter_count (x : α) (c : Nat) : ∀ (l : List α),
    (insertDescBy k x l).filter (fun a => k a == c) =
      if k x = c then x :: l.filter (fun a => k a == c)
      else l.filter (fun a => k a == c) := by
  intro l
  induction l with
  | nil =>
    by_cases h : k x = c
    · have hb : (k x == c) = true := by simpa using h
      simp [insertDescBy, List.filter, h, hb]
    · have hb : (k x == c) = false := by simpa using h
      simp [insertDescBy, List.filter, h, hb]
  | cons y ys ih =>
    rw [insertDescBy]
    by_cases hc : k x < k y
    · rw [if_pos hc]
      by_cases hy : (k y == c) = true
      · have hxc : k x ≠ c := by
          have := eq_of_beq hy
          omega
        rw [List.filter_cons, List.filter_cons, hy]
        simp only [if_true]
        rw [ih, if_neg hxc, if_neg hxc]
      · have hy' : (k y == c) = false := by simpa using hy
        rw [List.filter_cons, List.filter_cons, hy']
        simp only [Bool.false_eq_true, if_false]
        rw [ih]
    · rw [if_neg hc]
      by_cases hx : k x = c
      · have hb : (k x == c) = true := by simpa using hx
        rw [List.filter_cons, hb, if_pos hx]
        simp only [if_true]
      · have hb : (k x == c) = false := by simpa using hx
        rw [List.filter_cons, hb, if_neg hx]
        simp only [Bool.false_eq_true, if_false]

lemma sortDescBy_filter_count (c : Nat) : ∀ (l : List α),
    (sortDescBy k l).filter (fun a => k a == c) =
      l.filter (fun a => k a == c) := by
  intro l
  induction l with
  | nil => rfl
  | cons x xs ih =>
    rw [sortDescBy, insertDescBy_filter_count]
    by_cases hx : k x = c
    · rw [if_pos hx, ih, List.filter_cons_of_pos (by simp [hx])]
    · rw [if_neg hx, ih, List.filter_cons_of_neg (by simp [hx])]

end SortDesc

/-! ## Node mention-count lemmas (claim C2) -/

lemma mentionsOf_touchNode (nodes : List GraphNode) (r : EntityRef)
    (itid x : String) :
    mentionsOf (touchNode nodes r itid) x =
      mentionsOf nodes x + (if r.nid = x then 1 else 0) := by
  unfold mentionsOf
  have hb := assoc_find?_bump' GraphNode.id nodes (touchNode nodes r itid)
    r.nid x
    (fun n => { n with mentions := n.mentions + 1, evidence_ids := n.evidence_ids ++ [itid] })
    ({ id := r.nid, label := r.label, group := r.group, mentions := 1, evidence_ids := [itid] })
    rfl (fun a => rfl) rfl
  rw [hb]
  cases hf : nodes.find? (fun n => n.id == x) with
  | some n₀ =>
    have hxb := List.find?_some hf
    have hx : n₀.id = x := eq_of_beq (by simpa using hxb)
    by_cases hk : (n₀.id == r.nid) = true
    · have h1 : r.nid = x := by rw [← eq_of_beq hk, hx]
      simp [hk, h1, hx]
    · have hk' : (n₀.id == r.nid) = false := by simpa using hk
      have h1 : r.nid ≠ x := by
        intro he
        exact hk (by simp [hx, he])
      simp [hk', h1, hx, Ne.symm h1]
  | none =>
    by_cases hk : (r.nid == x) = true
    · have h1 : r.nid = x := eq_of_beq hk
      simp [hk, h1]
    · have hk' : (r.nid == x) = false := by simpa using hk
      have h1 : r.nid ≠ x := fun he => hk (by simp [he])
      simp [hk', h1]

lemma touchNode_keys_nodup (nodes : List GraphNode) (r : EntityRef)
    (itid : String) (h : (nodes.map GraphNode.id).Nodup) :
    ((touchNode nodes r itid).map GraphNode.id).Nodup := by
  have hb := assoc_keys_bump' GraphNode.id nodes (touchNode nodes r itid)
    r.nid
    (fun n => { n with mentions := n.mentions + 1, evidence_ids := n.evidence_ids ++ [itid] })
    ({ id := r.nid, label := r.label, group := r.group, mentions := 1, evidence_ids := [itid] })
    rfl (fun a => rfl) rfl
  rcases hb with h1 | ⟨h1, h2⟩
  · rw [h1]; exact h
  · rw [h1]
    refine List.Nodup.append h (by simp) ?_
    intro a ha hb
    obtain ⟨n, hn, hna⟩ := List.mem_map.mp ha
    have hfalse := h2 n hn
    rw [List.mem_singleton] at hb
    rw [hb] at hna
    simp [hna] at hfalse

lemma mentionsOf_foldTouch (itid x : String) : ∀ (refs : List EntityRef)
    (nodes : List GraphNode),
    mentionsOf (refs.foldl (fun ns r => touchNode ns r itid) nodes) x =
      mentionsOf nodes x + (refs.map EntityRef.nid).count x := by
  intro refs
  induction refs with
  | nil => intro nodes; simp
  | cons r rest ih =>
    intro nodes
    rw [List.foldl_cons, ih, mentionsOf_touchNode, List.map_cons,
      List.count_cons]
    by_cases h : r.nid = x
    · simp only [h, if_pos rfl, beq_self_eq_true, if_true]
      omega
    · have hb : (r.nid == x) = false := by simpa using h
      simp only [if_neg h, hb, Bool.false_eq_true, if_false]
      omega

lemma foldTouch_keys_nodup (itid : String) : ∀ (refs : List EntityRef)
    (nodes : List GraphNode), (nodes.map GraphNode.id).Nodup →
    (((refs.foldl (fun ns r => touchNode ns r itid) nodes)).map
      GraphNode.id).Nodup := by
  intro refs
  induction refs with
  | nil => exact fun nodes h => h
  | cons r rest ih =>
    intro nodes h
    rw [List.foldl_cons]
    exact ih _ (touchNode_keys_nodup nodes r itid h)

lemma mentionsOf_processItem (st : GState) (it : EvidenceItem) (x : String) :
    mentionsOf (processItem st it).nodes x =
      mentionsOf st.nodes x + (itemIds it).count x := by
  unfold processItem itemIds
  exact mentionsOf_foldTouch it.id x (itemEntityRefs it) st.nodes

lemma mentionsOf_foldItems (x : String) : ∀ (L : List EvidenceItem)
    (st : GState),
    mentionsOf ((L.foldl processItem st).nodes) x =
      mentionsOf st.nodes x + (L.map (fun it => (itemIds it).count x)).sum := by
  intro L
  induction L with
  | nil => intro st; simp
  | cons it rest ih =>
    intro st
    rw [List.foldl_cons, ih, mentionsOf_processItem, List.map_cons,
      List.sum_cons]
    omega

lemma foldItems_keys_nodup : ∀ (L : List EvidenceItem) (st : GState),
    (st.nodes.map GraphNode.id).Nodup →
    (((L.foldl processItem st).nodes).map GraphNode.id).Nodup := by
  intro L
  induction L with
  | nil => exact fun st h => h
  | cons it rest ih =>
    intro st h
    rw [List.foldl_cons]
    refine ih _ ?_
    unfold processItem
    exact foldTouch_keys_nodup it.id (itemEntityRefs it) st.nodes h

lemma accum_nodes_nodup (E : List EvidenceItem) :
    (((accumState E).nodes).map GraphNode.id).Nodup :=
  foldItems_keys_nodup (E.take 100) ⟨[], []⟩ (by simp)

lemma find?_self_of_nodup : ∀ (nodes : List GraphNode),
    (nodes.map GraphNode.id).Nodup → ∀ n ∈ nodes,
    nodes.find? (fun m => m.id == n.id) = some n := by
  intro nodes
  induction nodes with
  | nil => intro _ n hn; cases hn
  | cons a rest ih =>
    intro h n hn
    have h' := h
    rw [List.map_cons, List.nodup_cons] at h'
    rcases List.mem_cons.mp hn with rfl | hn'
    · simp [List.find?]
    · have hne : (a.id == n.id) = false := by
        simp only [beq_eq_false_iff_ne, ne_eq]
        intro he
        exact h'.1 (he ▸ List.mem_map_of_mem GraphNode.id hn')
      rw [List.find?_cons, hne]
      exact ih h'.2 n hn'

lemma mem_accum_mentions (E : List EvidenceItem) (n : GraphNode)
    (hn : n ∈ (accumState E).nodes) :
    n.mentions = ((E.take 100).map (fun it => (itemIds it).count n.id)).sum := by
  have hfind := find?_self_of_nodup _ (accum_nodes_nodup E) n hn
  have hm : mentionsOf (accumState E).nodes n.id = n.mentions := by
    unfold mentionsOf
    rw [hfind]
    rfl
  have hsum := mentionsOf_foldItems n.id (E.take 100) ⟨[], []⟩
  rw [show (E.take 100).foldl processItem ⟨[], []⟩ = accumState E from rfl] at hsum
  rw [hm] at hsum
  simpa [mentionsOf] using hsum

lemma sum_count_eq_filter_length (x : String) : ∀ (L : List EvidenceItem),
    (∀ it ∈ L, (itemIds it).Nodup) →
    (L.map (fun it => (itemIds it).count x)).sum =
      (L.filter (fun it => (itemIds it).contains x)).length := by
  intro L
  induction L with
  | nil => intro _; rfl
  | cons it rest ih =>
    intro h
    rw [List.map_cons, List.sum_cons, List.filter_cons]
    by_cases hx : x ∈ itemIds it
    · have hc : (itemIds it).count x = 1 :=
        List.count_eq_one_of_mem (h it (List.mem_cons_self it rest)) hx
      have hcont : ((itemIds it).contains x) = true := by simpa using hx
      rw [hc, hcont, if_pos rfl, List.length_cons,
        ih (fun i hi => h i (List.mem_cons_of_mem it hi))]
      omega
    · have hc : (itemIds it).count x = 0 := List.count_eq_zero_of_not_mem hx
      have hcont : ((itemIds it).contains x) = false := by simpa using hx
      rw [hc, hcont]
      simp only [Bool.false_eq_true, if_false]
      rw [ih (fun i hi => h i (List.mem_cons_of_mem it hi))]
      omega

/-- Counterexample to claim C2 as stated: one evidence item whose entity
list mentions `t:AAA` twice yields an emitted node with `mentions = 2`,
while only 1 processed evidence item contains that entity. -/
theorem C2_counterexample :
    (computeGraph dupEvidence).nodes.find? (fun n => n.id == "t:AAA") =
      some ⟨"t:AAA", "AAA", "t", 2, ["1", "1"]⟩ ∧
    ((dupEvidence.take 100).filter
      (fun it => (itemIds it).contains "t:AAA")).length = 1 := by decide

/-- Claim C2 amended: when no processed item contributes the same node id
twice (duplicate entity mentions within one item being the exception), every
node emitted by the graph computation has `mentions` equal to the number of
processed (capped at 100) evidence items containing that entity; in general
`mentions` counts per-item occurrences, not items. -/
theorem C2_node_mentions (E : List EvidenceItem)
    (hdup : ∀ it ∈ E.take 100, (itemIds it).Nodup) :
    ∀ n ∈ (computeGraph E).nodes,
      n.mentions =
        ((E.take 100).filter (fun it => (itemIds it).contains n.id)).length := by
  intro n hn
  have hkept : n ∈ keptNodes E := hn
  have hn' : n ∈ (accumState E).nodes :=
    mem_sortDescBy _ (List.mem_of_mem_take hkept)
  rw [mem_accum_mentions E n hn']
  exact sum_count_eq_filter_length n.id (E.take 100) hdup

/-- Witness for C2 on a duplicate-free item. -/
theorem C2_node_mentions_witness :
    (∀ it ∈ ([capItem 1] : List EvidenceItem).take 100, (itemIds it).Nodup) ∧
    (∀ n ∈ (computeGraph [capItem 1]).nodes,
      n.mentions = (([capItem 1].take 100).filter
        (fun it => (itemIds it).contains n.id)).length) :=
  ⟨by decide, C2_node_mentions [capItem 1] (by decide)⟩

/-! ## Pair-key lemmas (claim C1) -/

lemma charToNat_inj {a b : Char} (h : a.toNat = b.toNat) : a = b := by
  have := congrArg Char.ofNat h
  rwa [Char.ofNat_toNat, Char.ofNat_toNat] at this

lemma strLtData_asymm : ∀ (l m : List Char),
    strLtData l m = true → strLtData m l = false
  | [], [] => by simp [strLtData]
  | [], _ :: _ => by intro _; rfl
  | _ :: _, [] => by simp [strLtData]
  | a :: as, b :: bs => by
    intro h
    rw [strLtData] at h ⊢
    by_cases h1 : a.toNat < b.toNat
    · rw [if_neg (by omega), if_pos h1]
    · by_cases h2 : b.toNat < a.toNat
      · rw [if_neg h1, if_pos h2] at h
        exact absurd h (by simp)
      · rw [if_neg h1, if_neg h2] at h
        rw [if_neg h2, if_neg h1]
        exact strLtData_asymm as bs h

lemma strLtData_conn : ∀ (l m : List Char),
    strLtData l m = false → strLtData m l = false → l = m
  | [], [] => fun _ _ => rfl
  | [], _ :: _ => by
    intro h _
    exact absurd h (by simp [strLtData])
  | _ :: _, [] => by
    intro _ h
    exact absurd h (by simp [strLtData])
  | a :: as, b :: bs => by
    intro h1 h2
    rw [strLtData] at h1 h2
    by_cases hab : a.toNat < b.toNat
    · rw [if_pos hab] at h1
      exact absurd h1 (by simp)
    · by_cases hba : b.toNat < a.toNat
      · rw [if_pos hba] at h2
        exact absurd h2 (by simp)
      · rw [if_neg hab, if_neg hba] at h1
        rw [if_neg hba, if_neg hab] at h2
        have hc : a = b := charToNat_inj (by omega)
        rw [hc, strLtData_conn as bs h1 h2]

lemma pyLt_asymm {a b : String} (h : pyLt a b = true) : pyLt b a = false :=
  strLtData_asymm _ _ h

lemma pyLt_conn {a b : String} (h1 : pyLt a b = false)
    (h2 : pyLt b a = false) : a = b :=
  string_data_inj (strLtData_conn _ _ h1 h2)

lemma pairKey_comm (a b : String) : pairKey a b = pairKey b a := by
  unfold pairKey
  by_cases h1 : pyLt b a = true
  · rw [if_pos h1, if_neg (by simp [pyLt_asymm h1])]
  · by_cases h2 : pyLt a b = true
    · rw [if_neg h1, if_pos h2]
    · have hab : a = b := pyLt_conn (by simpa using h2) (by simpa using h1)
      rw [hab]

lemma pairKey_eq_iff (x y a b : String) :
    pairKey x y = pairKey a b ↔ (x = a ∧ y = b) ∨ (x = b ∧ y = a) := by
  constructor
  · intro h
    unfold pairKey at h
    by_cases h1 : pyLt y x = true <;> by_cases h2 : pyLt b a = true
    · rw [if_pos h1, if_pos h2] at h
      injection h with hy hx
      exact .inl ⟨hx, hy⟩
    · rw [if_pos h1, if_neg h2] at h
      injection h with hy hx
      exact .inr ⟨hx, hy⟩
    · rw [if_neg h1, if_pos h2] at h
      injection h with hx hy
      exact .inr ⟨hx, hy⟩
    · rw [if_neg h1, if_neg h2] at h
      injection h with hx hy
      exact .inl ⟨hx, hy⟩
  · rintro (⟨rfl, rfl⟩ | ⟨rfl, rfl⟩)
    · rfl
    · exact pairKey_comm x y

lemma count_pairKey_map (x : String) (xs : List String) (A B : String)
    (hAB : A ≠ B) :
    (xs.map (fun y => pairKey x y)).count (pairKey A B) =
      (if x = A then xs.count B else 0) + (if x = B then xs.count A else 0) := by
  induction xs with
  | nil => simp
  | cons y ys ih =>
    rw [List.map_cons, List.count_cons, ih]
    by_cases hp : pairKey x y = pairKey A B
    · have hb : (pairKey x y == pairKey A B) = true := by simpa using hp
      rcases (pairKey_eq_iff x y A B).mp hp with ⟨hxA, hyB⟩ | ⟨hxB, hyA⟩
      · subst hxA
        subst hyB
        simp [List.count_cons, hAB, hb]
      · subst hxB
        subst hyA
        simp [List.count_cons, Ne.symm hAB, hb]
    · have hb : (pairKey x y == pairKey A B) = false := by simpa using hp
      by_cases hxA : x = A
      · subst hxA
        have hyB : y ≠ B := fun hy =>
          hp ((pairKey_eq_iff x y x B).mpr (.inl ⟨rfl, hy⟩))
        simp [List.count_cons, hAB, hb, hyB]
      · by_cases hxB : x = B
        · subst hxB
          have hyA : y ≠ A := fun hy =>
            hp ((pairKey_eq_iff x y A x).mpr (.inr ⟨rfl, hy⟩))
          simp [List.count_cons, Ne.symm hAB, hb, hyA, hxA]
        · simp [hxA, hxB, hb]

lemma itemPairs_count (A B : String) (hAB : A ≠ B) : ∀ (l : List String),
    (itemPairs l).count (pairKey A B) = l.count A * l.count B := by
  intro l
  induction l with
  | nil => simp [itemPairs]
  | cons x xs ih =>
    rw [itemPairs, List.count_append, ih, count_pairKey_map x xs A B hAB,
      List.count_cons, List.count_cons]
    by_cases hxA : x = A
    · subst hxA
      simp [hAB]
      ring
    · by_cases hxB : x = B
      · subst hxB
        simp [hxA, Ne.symm hAB]
        ring
      · simp [hxA, hxB]

/-! ## Co-occurrence dict lemmas (claim C1) -/

lemma coocCountOf_bumpPair (cooc : List ((String × String) × CoocData))
    (p q : String × String) (itid : String) (ctx : EdgeContext) :
    coocCountOf (bumpPair cooc p itid ctx) q =
      coocCountOf cooc q + (if p = q then 1 else 0) := by
  unfold coocCountOf
  have hb := assoc_find?_bump' Prod.fst cooc (bumpPair cooc p itid ctx) p q
    (fun e => (e.1, { count := e.2.count + 1, evidence_ids := e.2.evidence_ids ++ [itid], contexts := e.2.contexts ++ [ctx] }))
    ((p, { count := 1, evidence_ids := [itid], contexts := [ctx] }))
    rfl (fun a => rfl) rfl
  rw [hb]
  cases hf : cooc.find? (fun e => e.1 == q) with
  | some e₀ =>
    have hxb := List.find?_some hf
    have hx : e₀.1 = q := eq_of_beq (by simpa using hxb)
    by_cases hk : (e₀.1 == p) = true
    · have h1 : p = q := by rw [← eq_of_beq hk, hx]
      simp [hk, h1, hx]
    · have hk' : (e₀.1 == p) = false := by simpa using hk
      have h1 : p ≠ q := fun he => hk (by simp [hx, he])
      simp [hk', h1, hx, Ne.symm h1]
  | none =>
    by_cases hk : (p == q) = true
    · have h1 : p = q := eq_of_beq hk
      simp [hk, h1]
    · have hk' : (p == q) = false := by simpa using hk
      have h1 : p ≠ q := fun he => hk (by simp [he])
      simp [hk', h1]

lemma bumpPair_keys_nodup (cooc : List ((String × String) × CoocData))
    (p : String × String) (itid : String) (ctx : EdgeContext)
    (h : (cooc.map Prod.fst).Nodup) :
    ((bumpPair cooc p itid ctx).map Prod.fst).Nodup := by
  have hb := assoc_keys_bump' Prod.fst cooc (bumpPair cooc p itid ctx) p
    (fun e => (e.1, { count := e.2.count + 1, evidence_ids := e.2.evidence_ids ++ [itid], contexts := e.2.contexts ++ [ctx] }))
    ((p, { count := 1, evidence_ids := [itid], contexts := [ctx] }))
    rfl (fun a => rfl) rfl
  rcases hb with h1 | ⟨h1, h2⟩
  · rw [h1]; exact h
  · rw [h1]
    refine List.Nodup.append h (by simp) ?_
    intro a ha hbmem
    obtain ⟨e, he, hea⟩ := List.mem_map.mp ha
    have hfalse := h2 e he
    rw [List.mem_singleton] at hbmem
    rw [hbmem] at hea
    simp [hea] at hfalse

lemma coocCountOf_foldBump (itid : String) (ctx : EdgeContext)
    (q : String × String) : ∀ (ps : List (String × String))
    (cooc : List ((String × String) × CoocData)),
    coocCountOf (ps.foldl (fun c r => bumpPair c r itid ctx) cooc) q =
      coocCountOf cooc q + ps.count q := by
  intro ps
  induction ps with
  | nil => intro cooc; simp
  | cons r rest ih =>
    intro cooc
    rw [List.foldl_cons, ih, coocCountOf_bumpPair, List.count_cons]
    by_cases h : r = q
    · simp only [h, if_pos rfl, beq_self_eq_true, if_true]
      omega
    · have hb : (r == q) = false := by simpa using h
      simp only [if_neg h, hb, Bool.false_eq_true, if_false]
      omega

lemma foldBump_keys_nodup (itid : String) (ctx : EdgeContext) :
    ∀ (ps : List (String × String))
    (cooc : List ((String × String) × CoocData)),
    (cooc.map Prod.fst).Nodup →
    (((ps.foldl (fun c r => bumpPair c r itid ctx) cooc)).map Prod.fst).Nodup := by
  intro ps
  induction ps with
  | nil => exact fun cooc h => h
  | cons r rest ih =>
    intro cooc h
    rw [List.foldl_cons]
    exact ih _ (bumpPair_keys_nodup cooc r itid ctx h)

lemma coocCountOf_processItem (st : GState) (it : EvidenceItem)
    (q : String × String) :
    coocCountOf (processItem st it).cooc q =
      coocCountOf st.cooc q + (itemPairs (itemIds it)).count q := by
  unfold processItem itemIds
  exact coocCountOf_foldBump it.id _ q
    (itemPairs ((itemEntityRefs it).map EntityRef.nid)) st.cooc

lemma coocCountOf_foldItems (q : String × String) : ∀ (L : List EvidenceItem)
    (st : GState),
    coocCountOf ((L.foldl processItem st).cooc) q =
      coocCountOf st.cooc q +
        (L.map (fun it => (itemPairs (itemIds it)).count q)).sum := by
  intro L
  induction L with
  | nil => intro st; simp
  | cons it rest ih =>
    intro st
    rw [List.foldl_cons, ih, coocCountOf_processItem, List.map_cons,
      List.sum_cons]
    omega

lemma accum_cooc_keys_nodup (E : List EvidenceItem) :
    (((accumState E).cooc).map Prod.fst).Nodup := by
  suffices h : ∀ (L : List EvidenceItem) (st : GState),
      (st.cooc.map Prod.fst).Nodup →
      (((L.foldl processItem st).cooc).map Prod.fst).Nodup by
    exact h (E.take 100) ⟨[], []⟩ (by simp)
  intro L
  induction L with
  | nil => exact fun st h => h
  | cons it rest ih =>
    intro st h
    rw [List.foldl_cons]
    refine ih _ ?_
    unfold processItem
    exact foldBump_keys_nodup it.id _
      (itemPairs ((itemEntityRefs it).map EntityRef.nid)) st.cooc h

lemma find?_pair_self : ∀ (cooc : List ((String × String) × CoocData)),
    ((cooc.map Prod.fst).Nodup) → ∀ e ∈ cooc,
    cooc.find? (fun x => x.1 == e.1) = some e := by
  intro cooc
  induction cooc with
  | nil => intro _ e he; cases he
  | cons a rest ih =>
    intro h e he
    have h' := h
    rw [List.map_cons, List.nodup_cons] at h'
    rcases List.mem_cons.mp he with rfl | he'
    · simp [List.find?]
    · have hne : (a.1 == e.1) = false := by
        simp only [beq_eq_false_iff_ne, ne_eq]
        intro hee
        exact h'.1 (hee ▸ List.mem_map_of_mem Prod.fst he')
      rw [List.find?_cons, hne]
      exact ih h'.2 e he'

lemma coocCountOf_accum (E : List EvidenceItem) (q : String × String) :
    coocCountOf (accumState E).cooc q =
      ((E.take 100).map (fun it => (itemPairs (itemIds it)).count q)).sum := by
  have h := coocCountOf_foldItems q (E.take 100) ⟨[], []⟩
  simpa [accumState, coocCountOf] using h

lemma rawEdges_weight (E : List EvidenceItem) (e : GraphEdge)
    (he : e ∈ rawEdges E) :
    e.weight = coocCountOf (accumState E).cooc (e.source, e.target) := by
  unfold rawEdges at he
  obtain ⟨entry, hentry, heq⟩ := List.mem_map.mp he
  have hmem : entry ∈ (accumState E).cooc := List.mem_of_mem_filter hentry
  have hfind := find?_pair_self _ (accum_cooc_keys_nodup E) entry hmem
  rw [← heq]
  show entry.2.count = coocCountOf (accumState E).cooc (entry.1.1, entry.1.2)
  unfold coocCountOf
  rw [show ((entry.1.1, entry.1.2) : String × String) = entry.1 from rfl, hfind]
  rfl

lemma sum_paircount_eq_filter (A B : String) (hAB : A ≠ B) :
    ∀ (L : List EvidenceItem), (∀ it ∈ L, (itemIds it).Nodup) →
    (L.map (fun it => (itemPairs (itemIds it)).count (pairKey A B))).sum =
      (L.filter (fun it =>
        (itemIds it).contains A && (itemIds it).contains B)).length := by
  intro L
  induction L with
  | nil => intro _; rfl
  | cons it rest ih =>
    intro h
    rw [List.map_cons, List.sum_cons, List.filter_cons,
      itemPairs_count A B hAB]
    have hnd := h it (List.mem_cons_self it rest)
    have hrest := fun i hi => h i (List.mem_cons_of_mem it hi)
    by_cases hA : A ∈ itemIds it
    · by_cases hB : B ∈ itemIds it
      · rw [List.count_eq_one_of_mem hnd hA, List.count_eq_one_of_mem hnd hB]
        have hc : ((itemIds it).contains A && (itemIds it).contains B) = true := by
          simp [hA, hB]
        rw [hc, if_pos rfl, List.length_cons, ih hrest]
        omega
      · rw [List.count_eq_zero_of_not_mem hB]
        have hc : ((itemIds it).contains A && (itemIds it).contains B) = false := by
          simp [hB]
        rw [hc]
        simp only [Bool.false_eq_true, if_false]
        rw [ih hrest]
        omega
    · rw [List.count_eq_zero_of_not_mem hA]
      have hc : ((itemIds it).contains A && (itemIds it).contains B) = false := by
        simp [hA]
      rw [hc]
      simp only [Bool.false_eq_true, if_false]
      rw [ih hrest]
      omega

/-- Counterexample to claim C1 as stated: one evidence item whose entity
list mentions `t:AAA` twice alongside `t:BBB` yields the edge
`(t:AAA, t:BBB)` with weight 2, although only 1 processed evidence item
contains both endpoints. -/
theorem C1_counterexample :
    ∃ e ∈ rawEdges dupEvidence,
      (e.source, e.target) = pairKey "t:AAA" "t:BBB" ∧ e.weight = 2 ∧
      ((dupEvidence.take 100).filter (fun it =>
        (itemIds it).contains "t:AAA" && (itemIds it).contains "t:BBB")).length
        = 1 := by decide

/-- Claim C1 amended: for distinct entities A and B, when no processed item
lists the same item-entity twice, the edge produced for the unordered pair
(A, B) has weight equal to the number of processed (capped at 100) evidence
items in which both A and B appear as item-entities (in general the weight
is the per-item product of occurrence counts, summed); and the weight is
unchanged under any permutation of the processed subset, hence independent
of the iteration order of E whenever E has at most 100 items. -/
theorem C1_edge_weight (E E' : List EvidenceItem) (A B : String)
    (hAB : A ≠ B) (hdup : ∀ it ∈ E.take 100, (itemIds it).Nodup)
    (hperm : List.Perm (E.take 100) (E'.take 100)) :
    (∀ e ∈ rawEdges E, (e.source, e.target) = pairKey A B →
      e.weight = ((E.take 100).filter (fun it =>
        (itemIds it).contains A && (itemIds it).contains B)).length) ∧
    (∀ e ∈ rawEdges E, ∀ e' ∈ rawEdges E',
      (e.source, e.target) = pairKey A B →
      (e'.source, e'.target) = pairKey A B → e.weight = e'.weight) := by
  constructor
  · intro e he hkey
    rw [rawEdges_weight E e he, hkey, coocCountOf_accum]
    exact sum_paircount_eq_filter A B hAB (E.take 100) hdup
  · intro e he e' he' hkey hkey'
    rw [rawEdges_weight E e he, hkey, coocCountOf_accum,
      rawEdges_weight E' e' he', hkey', coocCountOf_accum]
    exact List.Perm.sum_eq (hperm.map _)

/-- Witness for C1 on a duplicate-free one-item evidence set. -/
theorem C1_edge_weight_witness :
    ("t:AAA" : String) ≠ "t:BBB" ∧
    (∀ it ∈ ([capItem 1] : List EvidenceItem).take 100, (itemIds it).Nodup) ∧
    (∀ e ∈ rawEdges [capItem 1],
      (e.source, e.target) = pairKey "t:AAA" "t:BBB" →
      e.weight = (([capItem 1].take 100).filter (fun it =>
        (itemIds it).contains "t:AAA" && (itemIds it).contains "t:BBB")).length) :=
  ⟨by decide, by decide,
    (C1_edge_weight [capItem 1] [capItem 1] "t:AAA" "t:BBB" (by decide)
      (by decide) (List.Perm.refl _)).1⟩

/-! ## Top-N selection lemmas (claim C7) -/

lemma take_sorted_top_by {α β : Type} (k : α → Nat) (g : α → β) (l : List α)
    (N : Nat) : ∀ x ∈ (sortDescBy k l).take N, ∀ y ∈ l,
    (∀ x' ∈ (sortDescBy k l).take N, g y ≠ g x') → k y ≤ k x := by
  intro x hx y hy hynot
  have hy' : y ∈ sortDescBy k l := (sortDescBy_perm k l).mem_iff.mpr hy
  rw [← List.take_append_drop N (sortDescBy k l)] at hy'
  rcases List.mem_append.mp hy' with h | h
  · exact absurd rfl (hynot y h)
  · have hpw := sortDescBy_pairwise k l
    rw [← List.take_append_drop N (sortDescBy k l)] at hpw
    exact (List.pairwise_append.mp hpw).2.2 x hx y h

lemma take_filter_prefix {α : Type} (k : α → Nat) (l : List α) (N c : Nat) :
    List.IsPrefix (((sortDescBy k l).take N).filter (fun a => k a == c))
      (l.filter (fun a => k a == c)) := by
  have h1 : List.IsPrefix ((sortDescBy k l).take N) (sortDescBy k l) :=
    List.take_prefix N _
  have h2 := h1.filter (fun a => k a == c)
  rwa [sortDescBy_filter_count] at h2

/-- Claim C7: when more than 30 candidate nodes are accumulated, exactly 30
are kept; they all come from the accumulated nodes; every dropped node has
at most the mention count of every kept node; and within each mention-count
class the kept nodes are an initial segment of the accumulated (insertion)
order — ties broken by insertion order.  When more than 50 edges survive
the endpoint filter, exactly the 50 heaviest survive, and every dropped
surviving edge weighs at most every kept edge. -/
theorem C7_cap_enforcement (E : List EvidenceItem)
    (h30 : 30 < (accumState E).nodes.length)
    (h50 : 50 < (survivingEdges E).length) :
    (computeGraph E).nodes.length = 30 ∧
    (computeGraph E).edges.length = 50 ∧
    (∀ n ∈ (computeGraph E).nodes, n ∈ (accumState E).nodes) ∧
    (∀ n ∈ (computeGraph E).nodes, ∀ m ∈ (accumState E).nodes,
      (∀ n' ∈ (computeGraph E).nodes, m.id ≠ n'.id) →
      m.mentions ≤ n.mentions) ∧
    (∀ c : Nat, List.IsPrefix
      ((computeGraph E).nodes.filter (fun n => n.mentions == c))
      ((accumState E).nodes.filter (fun n => n.mentions == c))) ∧
    (∀ e ∈ (computeGraph E).edges, e ∈ survivingEdges E) ∧
    (∀ e ∈ (computeGraph E).edges, ∀ f ∈ survivingEdges E,
      (∀ e' ∈ (computeGraph E).edges,
        (f.source, f.target) ≠ (e'.source, e'.target)) →
      f.weight ≤ e.weight) := by
  have hnodes : (computeGraph E).nodes =
      (sortDescBy (fun n => n.mentions) (accumState E).nodes).take 30 := rfl
  have hedges : (computeGraph E).edges =
      (sortDescBy (fun e => e.weight) (survivingEdges E)).take 50 := rfl
  refine ⟨?_, ?_, ?_, ?_, ?_, ?_, ?_⟩
  · rw [hnodes, List.length_take, length_sortDescBy]
    omega
  · rw [hedges, List.length_take, length_sortDescBy]
    omega
  · intro n hn
    rw [hnodes] at hn
    exact mem_sortDescBy _ (List.mem_of_mem_take hn)
  · intro n hn m hm hnot
    rw [hnodes] at hn hnot
    exact take_sorted_top_by (fun n => n.mentions) GraphNode.id
      (accumState E).nodes 30 n hn m hm hnot
  · intro c
    rw [hnodes]
    exact take_filter_prefix (fun n => n.mentions) (accumState E).nodes 30 c
  · intro e he
    rw [hedges] at he
    exact mem_sortDescBy _ (List.mem_of_mem_take he)
  · intro e he f hf hnot
    rw [hedges] at he hnot
    exact take_sorted_top_by (fun e => e.weight)
      (fun e => (e.source, e.target)) (survivingEdges E) 50 e he f hf hnot

set_option maxRecDepth 200000 in
/-- Witness for C7 on 29 items over 31 entities with 57 surviving edges:
both caps bind and the kept counts are exactly 30 and 50. -/
theorem C7_cap_enforcement_witness :
    30 < (accumState capEvidence).nodes.length ∧
    50 < (survivingEdges capEvidence).length ∧
    (computeGraph capEvidence).nodes.length = 30 ∧
    (computeGraph capEvidence).edges.length = 50 :=
  ⟨by decide, by decide,
    (C7_cap_enforcement capEvidence (by decide) (by decide)).1,
    (C7_cap_enforcement capEvidence (by decide) (by decide)).2.1⟩

/-! ## Pattern-detection lemmas (claim C6) -/

lemma find?_fst_self {κ β : Type} [BEq κ] [LawfulBEq κ] :
    ∀ (l : List (κ × β)), ((l.map Prod.fst).Nodup) → ∀ e ∈ l,
    l.find? (fun x => x.1 == e.1) = some e := by
  intro l
  induction l with
  | nil => intro _ e he; cases he
  | cons a rest ih =>
    intro h e he
    have h' := h
    rw [List.map_cons, List.nodup_cons] at h'
    rcases List.mem_cons.mp he with rfl | he'
    · simp [List.find?]
    · have hne : (a.1 == e.1) = false := by
        simp only [beq_eq_false_iff_ne, ne_eq]
        intro hee
        exact h'.1 (hee ▸ List.mem_map_of_mem Prod.fst he')
      rw [List.find?_cons, hne]
      exact ih h'.2 e he'

lemma matchesOf_extendMatches (pm : List (String × List String)) (k : String)
    (ms : List String) (name : String) :
    matchesOf (extendMatches pm k ms) name =
      matchesOf pm name ++ (if k = name then ms else []) := by
  unfold matchesOf
  have hb := assoc_find?_bump' Prod.fst pm (extendMatches pm k ms) k name
    (fun e => (e.1, e.2 ++ ms)) ((k, ms)) rfl (fun a => rfl) rfl
  rw [hb]
  cases hf : pm.find? (fun e => e.1 == name) with
  | some e₀ =>
    have hx : e₀.1 = name := eq_of_beq (by simpa using List.find?_some hf)
    by_cases hk : (e₀.1 == k) = true
    · have h1 : k = name := by rw [← eq_of_beq hk, hx]
      simp [hk, h1, hx]
    · have hk' : (e₀.1 == k) = false := by simpa using hk
      have h1 : k ≠ name := fun he => hk (by simp [hx, he])
      simp [hk', h1, Ne.symm h1, hx]
  | none =>
    by_cases hk : (k == name) = true
    · have h1 : k = name := eq_of_beq hk
      simp [hk, h1]
    · have hk' : (k == name) = false := by simpa using hk
      have h1 : ¬ (k = name) := fun he => hk (by simp [he])
      simp [hk', h1]

lemma extendMatches_keys (pm : List (String × List String)) (k : String)
    (ms : List String) :
    ((extendMatches pm k ms).map Prod.fst = pm.map Prod.fst) ∨
    ((extendMatches pm k ms).map Prod.fst = pm.map Prod.fst ++ [k] ∧
      ∀ e ∈ pm, (e.1 == k) = false) :=
  assoc_keys_bump' Prod.fst pm (extendMatches pm k ms) k
    (fun e => (e.1, e.2 ++ ms)) ((k, ms)) rfl (fun _ => rfl) rfl

lemma extendMatches_keys_nodup (pm : List (String × List String)) (k : String)
    (ms : List String) (h : (pm.map Prod.fst).Nodup) :
    ((extendMatches pm k ms).map Prod.fst).Nodup := by
  rcases extendMatches_keys pm k ms with he | ⟨he, hall⟩
  · rw [he]; exact h
  · rw [he]
    refine List.Nodup.append h (by simp) ?_
    intro a ha hb
    obtain ⟨e, hepm, hea⟩ := List.mem_map.mp ha
    have hfalse := hall e hepm
    rw [List.mem_singleton] at hb
    rw [hb] at hea
    simp [hea] at hfalse

lemma extendMatches_keys_subset (pm : List (String × List String)) (k : String)
    (ms : List String) (x : String)
    (hx : x ∈ (extendMatches pm k ms).map Prod.fst) :
    x ∈ pm.map Prod.fst ∨ x = k := by
  rcases extendMatches_keys pm k ms with he | ⟨he, _⟩
  · rw [he] at hx; exact .inl hx
  · rw [he] at hx
    rcases List.mem_append.mp hx with h | h
    · exact .inl h
    · exact .inr (List.mem_singleton.mp h)

lemma innerfold_keys (findall : String → String → List String)
    (item : EvidenceItem) : ∀ (pats : List (String × String))
    (pm : List (String × List String)),
    (pm.map Prod.fst).Nodup →
    (∀ x ∈ pm.map Prod.fst, x ∈ regex_patterns.map Prod.fst) →
    (∀ pi ∈ pats, pi.1 ∈ regex_patterns.map Prod.fst) →
    (((pats.foldl (fun pm pi =>
        let ms := findall pi.1 item.content
        if !ms.isEmpty then extendMatches pm pi.1 ms else pm) pm)).map
      Prod.fst).Nodup ∧
    (∀ x ∈ ((pats.foldl (fun pm pi =>
        let ms := findall pi.1 item.content
        if !ms.isEmpty then extendMatches pm pi.1 ms else pm) pm)).map
      Prod.fst, x ∈ regex_patterns.map Prod.fst) := by
  intro pats
  induction pats with
  | nil => exact fun pm h1 h2 _ => ⟨h1, h2⟩
  | cons pi pats ih =>
    intro pm h1 h2 h3
    rw [List.foldl_cons]
    by_cases hms : (findall pi.1 item.content).isEmpty = true
    · refine ih _ ?_ ?_ (fun q hq => h3 q (List.mem_cons_of_mem pi hq)) <;>
        simp only [hms, Bool.not_true, Bool.false_eq_true, if_false]
      · exact h1
      · exact h2
    · have hms' : (findall pi.1 item.content).isEmpty = false := by
        simpa using hms
      refine ih _ ?_ ?_ (fun q hq => h3 q (List.mem_cons_of_mem pi hq)) <;>
        simp only [hms', Bool.not_false, if_true]
      · exact extendMatches_keys_nodup pm pi.1 _ h1
      · intro x hx
        rcases extendMatches_keys_subset pm pi.1 _ x hx with h | rfl
        · exact h2 x h
        · exact h3 pi (List.mem_cons_self pi pats)

lemma innerfold_matchesOf (findall : String → String → List String)
    (item : EvidenceItem) (name : String) :
    ∀ (pats : List (String × String)) (pm : List (String × List String)),
    ((pats.map Prod.fst).Nodup) →
    matchesOf (pats.foldl (fun pm pi =>
        let ms := findall pi.1 item.content
        if !ms.isEmpty then extendMatches pm pi.1 ms else pm) pm) name =
      matchesOf pm name ++
        (if name ∈ pats.map Prod.fst then findall name item.content else []) := by
  intro pats
  induction pats with
  | nil => intro pm _; simp
  | cons pi pats ih =>
    intro pm hnd
    rw [List.map_cons, List.nodup_cons] at hnd
    rw [List.foldl_cons]
    have hstep : matchesOf (let ms := findall pi.1 item.content
        if !ms.isEmpty then extendMatches pm pi.1 ms else pm) name =
        matchesOf pm name ++
          (if pi.1 = name then findall pi.1 item.content else []) := by
      by_cases hms : (findall pi.1 item.content).isEmpty = true
      · have hempty : findall pi.1 item.content = [] := by
          simpa using hms
        simp only [hms, Bool.not_true, Bool.false_eq_true, if_false, hempty]
        simp
      · have hms' : (findall pi.1 item.content).isEmpty = false := by
          simpa using hms
        simp only [hms', Bool.not_false, if_true]
        exact matchesOf_extendMatches pm pi.1 _ name
    rw [ih _ hnd.2, hstep]
    by_cases hpi : pi.1 = name
    · subst hpi
      have hni : pi.1 ∉ pats.map Prod.fst := hnd.1
      simp [hni]
    · rw [if_neg hpi, List.append_nil, List.map_cons]
      by_cases hmem : name ∈ pats.map Prod.fst
      · rw [if_pos hmem, if_pos (List.mem_cons_of_mem _ hmem)]
      · rw [if_neg hmem, if_neg (by simp [List.mem_cons, Ne.symm hpi, hmem])]

lemma matchesOf_patternMatches (findall : String → String → List String)
    (name : String) (hname : name ∈ regex_patterns.map Prod.fst)
    (items : List EvidenceItem) :
    matchesOf (patternMatches findall items) name =
      items.flatMap (fun it => findall name it.content) := by
  suffices h : ∀ (L : List EvidenceItem) (pm : List (String × List String)),
      matchesOf (L.foldl (fun pm item =>
        regex_patterns.foldl (fun pm pi =>
          let ms := findall pi.1 item.content
          if !ms.isEmpty then extendMatches pm pi.1 ms else pm) pm) pm) name =
      matchesOf pm name ++ L.flatMap (fun it => findall name it.content) by
    have := h items []
    simpa [patternMatches, matchesOf] using this
  intro L
  induction L with
  | nil => intro pm; simp
  | cons it rest ih =>
    intro pm
    rw [List.foldl_cons, ih]
    rw [innerfold_matchesOf findall it name regex_patterns pm (by decide)]
    rw [if_pos hname, List.flatMap_cons, List.append_assoc]

lemma patternMatches_keys (findall : String → String → List String)
    (items : List EvidenceItem) :
    (((patternMatches findall items)).map Prod.fst).Nodup ∧
    ∀ x ∈ ((patternMatches findall items)).map Prod.fst,
      x ∈ regex_patterns.map Prod.fst := by
  suffices h : ∀ (L : List EvidenceItem) (pm : List (String × List String)),
      (pm.map Prod.fst).Nodup →
      (∀ x ∈ pm.map Prod.fst, x ∈ regex_patterns.map Prod.fst) →
      (((L.foldl (fun pm item =>
        regex_patterns.foldl (fun pm pi =>
          let ms := findall pi.1 item.content
          if !ms.isEmpty then extendMatches pm pi.1 ms else pm) pm) pm)).map
        Prod.fst).Nodup ∧
      ∀ x ∈ ((L.foldl (fun pm item =>
        regex_patterns.foldl (fun pm pi =>
          let ms := findall pi.1 item.content
          if !ms.isEmpty then extendMatches pm pi.1 ms else pm) pm) pm)).map
        Prod.fst, x ∈ regex_patterns.map Prod.fst by
    exact h items [] (by simp) (by simp)
  intro L
  induction L with
  | nil => exact fun pm h1 h2 => ⟨h1, h2⟩
  | cons it rest ih =>
    intro pm h1 h2
    rw [List.foldl_cons]
    obtain ⟨h1', h2'⟩ := innerfold_keys findall it regex_patterns pm h1 h2
      (fun pi hpi => List.mem_map_of_mem Prod.fst hpi)
    exact ih _ h1' h2'

lemma patternMatches_length_le (findall : String → String → List String)
    (items : List EvidenceItem) :
    (patternMatches findall items).length ≤ 7 := by
  obtain ⟨hnd, hsub⟩ := patternMatches_keys findall items
  have h1 : ((patternMatches findall items).map Prod.fst).length ≤
      (regex_patterns.map Prod.fst).length :=
    (hnd.subperm hsub).length_le
  simpa using h1

lemma mem_take8 {x : PatternFinding} (l₁ l₂ : List PatternFinding)
    (h7 : l₁.length ≤ 7) (hx : x ∈ l₁) : x ∈ (l₁ ++ l₂).take 8 := by
  rw [List.take_append_eq_append_take, List.take_of_length_le (by omega)]
  exact List.mem_append_left _ hx

lemma freqFindings_meta (items : List EvidenceItem) (f : PatternFinding)
    (hf : f ∈ freqFindings items) : ∃ n t v, f.meta = .freq n t v := by
  unfold freqFindings at hf
  obtain ⟨e, _, heq⟩ := List.mem_filterMap.mp hf
  by_cases h3 : 3 ≤ e.2
  · rw [if_pos h3] at heq
    injection heq with h
    exact ⟨e.2, (splitFirstColon e.1).1, (splitFirstColon e.1).2, by rw [← h]⟩
  · rw [if_neg h3] at heq
    cases heq

lemma temporalFindings_meta (hourKeyOf : String → Option String)
    (items : List EvidenceItem) (f : PatternFinding)
    (hf : f ∈ temporalFindings hourKeyOf items) :
    ∃ s n q, f.meta = .temporal s n q := by
  simp only [temporalFindings] at hf
  by_cases h10 : 10 < (items.filterMap (fun it => hourKeyOf it.timestamp)).length
  · rw [if_pos h10] at hf
    rcases hxs : sortDescBy Prod.snd
        (((items.filterMap (fun it => hourKeyOf it.timestamp)).foldl bumpCount
          []).filter (fun kv =>
            ((items.filterMap (fun it => hourKeyOf it.timestamp)).length : ℚ) /
              (max ((items.filterMap (fun it => hourKeyOf it.timestamp)).foldl
                bumpCount []).length 1 : ℚ) * 2 < (kv.2 : ℚ))) with
      _ | ⟨top, rest⟩
    · rw [hxs] at hf
      cases hf
    · rw [hxs] at hf
      rw [List.mem_singleton] at hf
      subst hf
      exact ⟨top.1, top.2, _, rfl⟩
  · rw [if_neg h10] at hf
    cases hf

/-- Claim C6: a regex pattern family with exactly 1 unique match across the
evidence set never appears among the returned findings, and a family with
at least 2 unique matches always does — with confidence
`min(0.9, 0.6 + unique_count*0.05)` — even under the overall cap of 8
findings, because the at most 7 regex findings precede all others. -/
theorem C6_regex_min_uniqueness (findall : String → String → List String)
    (hourKeyOf : String → Option String) (items : List EvidenceItem)
    (name : String) (hname : name ∈ regex_patterns.map Prod.fst) :
    (((items.flatMap (fun it => findall name it.content)).dedup).length = 1 →
      ∀ fnd ∈ detect_patterns findall hourKeyOf items,
        ∀ uc tc samples, fnd.meta ≠ .regex name uc tc samples) ∧
    (2 ≤ ((items.flatMap (fun it => findall name it.content)).dedup).length →
      ∃ fnd ∈ detect_patterns findall hourKeyOf items,
        fnd.meta = .regex name
          ((items.flatMap (fun it => findall name it.content)).dedup).length
          (items.flatMap (fun it => findall name it.content)).length
          (((items.flatMap (fun it => findall name it.content)).dedup).take 3) ∧
        fnd.confidence = min 0.9 (0.6 +
          ((((items.flatMap (fun it => findall name it.content)).dedup).length : ℚ))
            * 0.05)) := by
  have hmatches := matchesOf_patternMatches findall name hname items
  constructor
  · intro h1 fnd hfnd uc tc samples hmeta
    have hsplit : fnd ∈ regexFindings findall items ∨
        fnd ∈ freqFindings items ∨ fnd ∈ temporalFindings hourKeyOf items := by
      unfold detect_patterns at hfnd
      have := List.mem_of_mem_take hfnd
      rcases List.mem_append.mp this with h | h
      · rcases List.mem_append.mp h with h' | h'
        · exact .inl h'
        · exact .inr (.inl h')
      · exact .inr (.inr h)
    rcases hsplit with hreg | hfreq | htemp
    · obtain ⟨e, he, heq⟩ := List.mem_filterMap.mp hreg
      unfold mkRegexFinding at heq
      by_cases hcond : 2 ≤ e.2.dedup.length
      · rw [if_pos hcond] at heq
        injection heq with h
        rw [← h] at hmeta
        injection hmeta with hk _ _ _
        have hfind := find?_fst_self _ (patternMatches_keys findall items).1 e he
        have hval : matchesOf (patternMatches findall items) name = e.2 := by
          unfold matchesOf
          rw [← hk, hfind]
          rfl
        rw [hmatches] at hval
        rw [hval] at h1
        omega
      · rw [if_neg hcond] at heq
        cases heq
    · obtain ⟨n, t, v, hm⟩ := freqFindings_meta items fnd hfreq
      rw [hm] at hmeta
      exact FindingMeta.noConfusion hmeta
    · obtain ⟨s, n, q, hm⟩ := temporalFindings_meta hourKeyOf items fnd htemp
      rw [hm] at hmeta
      exact FindingMeta.noConfusion hmeta
  · intro h2
    have hMne : items.flatMap (fun it => findall name it.content) ≠ [] := by
      intro h0
      rw [h0] at h2
      simp at h2
    cases hf : (patternMatches findall items).find? (fun e => e.1 == name) with
    | none =>
      exfalso
      have hnil : matchesOf (patternMatches findall items) name = [] := by
        unfold matchesOf
        rw [hf]
        rfl
      exact hMne (by rw [← hmatches, hnil])
    | some e =>
      have he : e ∈ patternMatches findall items := List.mem_of_find?_eq_some hf
      have hkey : e.1 = name := eq_of_beq (by simpa using List.find?_some hf)
      have hval : e.2 = items.flatMap (fun it => findall name it.content) := by
        have hv : matchesOf (patternMatches findall items) name = e.2 := by
          unfold matchesOf
          rw [hf]
          rfl
        rw [← hv]
        exact hmatches
      have hcond : 2 ≤ e.2.dedup.length := by rw [hval]; exact h2
      obtain ⟨fnd, hfnd_eq⟩ : ∃ fnd, mkRegexFinding e = some fnd := by
        unfold mkRegexFinding
        rw [if_pos hcond]
        exact ⟨_, rfl⟩
      have hmem : fnd ∈ regexFindings findall items :=
        List.mem_filterMap.mpr ⟨e, he, hfnd_eq⟩

      have hmem8 : fnd ∈ detect_patterns findall hourKeyOf items := by
        unfold detect_patterns
        rw [List.append_assoc]
        refine mem_take8 _ _ ?_ hmem
        calc (regexFindings findall items).length
            ≤ (patternMatches findall items).length := List.length_filterMap_le _ _
          _ ≤ 7 := patternMatches_length_le findall items
      refine ⟨fnd, hmem8, ?_, ?_⟩
      · unfold mkRegexFinding at hfnd_eq
        rw [if_pos hcond] at hfnd_eq
        injection hfnd_eq with h
        rw [← h, ← hval, ← hkey]
      · unfold mkRegexFinding at hfnd_eq
        rw [if_pos hcond] at hfnd_eq
        injection hfnd_eq with h
        rw [← h, ← hval]

/-! ## Fallback-path lemmas (claim C9) -/

lemma ne_empty_of_data_pos (s : String) (h : 0 < s.data.length) : s ≠ "" := by
  intro he
  rw [he] at h
  exact absurd h (by decide)

lemma noMatchTemplate_ne (q : String) : noMatchTemplate q ≠ "" := by
  unfold noMatchTemplate
  repeat
    apply append_ne_empty_left
  decide

lemma propose_clarification_ne (q : String) (E : List EvidenceItem) :
    propose_clarification q E ≠ "" := by
  simp only [propose_clarification]
  repeat
    apply append_ne_empty_left
  decide

lemma generate_fallback_summary_ne (q : String) (items : List EvidenceItem) :
    generate_fallback_summary q items ≠ "" := by
  unfold generate_fallback_summary
  simp only [List.cons_append, List.append_assoc]
  exact joinParts_ne_empty _ _ _ (by decide)

lemma process_nlq_fail (cfg : AIConfig) (q : String) (E : List EvidenceItem) :
    process_natural_language_query cfg ExtOutcome.fail q E =
      fallback_query q E := by
  unfold process_natural_language_query query_gemini query_openai
  split_ifs <;> rfl

lemma fallback_query_bounds (q : String) (E : List EvidenceItem) :
    (fallback_query q E).1 ≠ "" ∧ 0.3 ≤ (fallback_query q E).2 ∧
      (fallback_query q E).2 ≤ 0.95 := by
  cases h : (relevantItems q E).isEmpty with
  | true =>
    simp only [fallback_query, h, if_true]
    exact ⟨noMatchTemplate_ne q, by norm_num, by norm_num⟩
  | false =>
    simp only [fallback_query, h, Bool.false_eq_true, if_false]
    refine ⟨generate_fallback_summary_ne q _, ?_, ?_⟩
    · refine le_min (by norm_num) ?_
      have h0 : (0:ℚ) ≤ ((relevantItems q E).length : ℚ) / ((E.length : ℚ)) :=
        div_nonneg (Nat.cast_nonneg _) (Nat.cast_nonneg _)
      calc (0.3:ℚ) ≤ 0.5 := by norm_num
        _ ≤ 0.5 + ((relevantItems q E).length : ℚ) / ((E.length : ℚ)) :=
          le_add_of_nonneg_right h0
    · exact le_trans (min_le_left _ _) (by norm_num)

lemma agent_fail_eval (cfg : AIConfig) (q : String) (E : List EvidenceItem) :
    process_query_with_agent cfg AgentFirstCall.fail ExtOutcome.fail q E =
      ((fallback_query q E).1, (fallback_query q E).2, none) ∨
    process_query_with_agent cfg AgentFirstCall.fail ExtOutcome.fail q E =
      (propose_clarification q E, 0.75, none) := by
  unfold process_query_with_agent
  cases h1 : (!cfg.use_gemini || !cfg.enable_agent_mode) with
  | true =>
    left
    simp [h1, process_nlq_fail]
  | false =>
    cases h2 : ((check_query_ambiguity q E).1 &&
        (check_query_ambiguity q E).2) with
    | true =>
      right
      simp [h1, h2]
    | false =>
      left
      simp [h1, h2, process_nlq_fail]

/-- Claim C9: with the external reasoning capability forced to fail, both
`process_natural_language_query` and `process_query_with_agent` return a
non-empty summary with confidence in [0.3, 0.95] (and, being total
functions, never raise); and when no evidence item matches the query
keywords the fallback returns exactly the templated no-match response with
confidence exactly 0.3. -/
theorem C9_fallback_determinism (cfg : AIConfig) (query_text : String)
    (evidence_items : List EvidenceItem) (_hne : evidence_items ≠ []) :
    ((process_natural_language_query cfg ExtOutcome.fail query_text
        evidence_items).1 ≠ "" ∧
      0.3 ≤ (process_natural_language_query cfg ExtOutcome.fail query_text
        evidence_items).2 ∧
      (process_natural_language_query cfg ExtOutcome.fail query_text
        evidence_items).2 ≤ 0.95) ∧
    ((process_query_with_agent cfg AgentFirstCall.fail ExtOutcome.fail
        query_text evidence_items).1 ≠ "" ∧
      0.3 ≤ (process_query_with_agent cfg AgentFirstCall.fail ExtOutcome.fail
        query_text evidence_items).2.1 ∧
      (process_query_with_agent cfg AgentFirstCall.fail ExtOutcome.fail
        query_text evidence_items).2.1 ≤ 0.95) ∧
    (relevantItems query_text evidence_items = [] →
      process_natural_language_query cfg ExtOutcome.fail query_text
        evidence_items = (noMatchTemplate query_text, 0.3)) := by
  obtain ⟨hb1, hb2, hb3⟩ := fallback_query_bounds query_text evidence_items
  refine ⟨?_, ?_, ?_⟩
  · rw [process_nlq_fail]
    exact ⟨hb1, hb2, hb3⟩
  · rcases agent_fail_eval cfg query_text evidence_items with heq | heq
    · rw [heq]
      exact ⟨hb1, hb2, hb3⟩
    · rw [heq]
      exact ⟨propose_clarification_ne query_text evidence_items,
        by norm_num, by norm_num⟩
  · intro hrel
    rw [process_nlq_fail]
    simp [fallback_query, hrel]

/-- Witness for C9: the capability-off configuration on a one-item evidence
set returns a non-empty summary in bounds. -/
theorem C9_fallback_determinism_witness :
    (process_natural_language_query cfgOff ExtOutcome.fail
      "find phone numbers" [plainItem "a1"]).1 ≠ "" ∧
    0.3 ≤ (process_natural_language_query cfgOff ExtOutcome.fail
      "find phone numbers" [plainItem "a1"]).2 ∧
    (process_natural_language_query cfgOff ExtOutcome.fail
      "find phone numbers" [plainItem "a1"]).2 ≤ 0.95 :=
  (C9_fallback_determinism cfgOff "find phone numbers" [plainItem "a1"]
    (by decide)).1

/-- Witness for C6: two distinct synthetic crypto-address matches produce
the crypto-address finding. -/
theorem C6_regex_min_uniqueness_witness :
    "crypto_address" ∈ regex_patterns.map Prod.fst ∧
    (2 ≤ ((c6Evidence.flatMap
        (fun it => findallW "crypto_address" it.content)).dedup).length →
      ∃ fnd ∈ detect_patterns findallW hourKey0 c6Evidence,
        fnd.meta = .regex "crypto_address"
          ((c6Evidence.flatMap
            (fun it => findallW "crypto_address" it.content)).dedup).length
          (c6Evidence.flatMap
            (fun it => findallW "crypto_address" it.content)).length
          (((c6Evidence.flatMap
            (fun it => findallW "crypto_address" it.content)).dedup).take 3) ∧
        fnd.confidence = min 0.9 (0.6 +
          ((((c6Evidence.flatMap
            (fun it => findallW "crypto_address" it.content)).dedup).length : ℚ))
            * 0.05)) :=
  ⟨by decide,
    (C6_regex_min_uniqueness findallW hourKey0 c6Evidence "crypto_address"
      (by decide)).2⟩

end ForensicFlow
